import Mathlib

/-!
Shallow embedding of `Plugin/VertexTweaker/VertexTweaker.cpp` (BlendShapeBuilder).

Machine `float` arithmetic is embedded as exact rational arithmetic (`ℚ`).
Helper primitives of the repository's math library (`mu`) that are not under
`src/` (vector/matrix algebra, `clamp01`, `lerp`, plane distance/mirror) are
modelled from the spec as the standard mathematical operations they name.
Operations whose exact value is irrational over ℚ (Euclidean `length`,
`normalize`, `acos`) are either replaced by exactly equivalent rational
comparisons (`length v < c` becomes `lengthSq v < c²`,
`angle_between a b ≤ θ` becomes a sign-aware squared cosine comparison) or
abstracted as explicit function parameters of the embedded operation;
theorems quantify over those parameters and witnesses instantiate them at
points where the rational instantiation agrees with the real function.
`parallel_for` loops whose bodies write only the slot they own are modelled
as sequential traversals, per the spec's ordering guarantee (§5).
-/

namespace VT

/-- Embedded 2-component float vector (`float2`). -/
structure Vec2 where
  x : ℚ
  y : ℚ
deriving DecidableEq, Repr

/-- Embedded 3-component float vector (`float3`). -/
structure Vec3 where
  x : ℚ
  y : ℚ
  z : ℚ
deriving DecidableEq, Repr

/-- Embedded 4-component float vector (`float4`). -/
structure Vec4 where
  x : ℚ
  y : ℚ
  z : ℚ
  w : ℚ
deriving DecidableEq, Repr

namespace Vec2

def add (a b : Vec2) : Vec2 := ⟨a.x + b.x, a.y + b.y⟩

def sub (a b : Vec2) : Vec2 := ⟨a.x - b.x, a.y - b.y⟩

def scale (a : Vec2) (s : ℚ) : Vec2 := ⟨a.x * s, a.y * s⟩

/-- Squared Euclidean length. -/
def lengthSq (a : Vec2) : ℚ := a.x * a.x + a.y * a.y

instance : Add Vec2 := ⟨add⟩

instance : Sub Vec2 := ⟨sub⟩

def zero : Vec2 := ⟨0, 0⟩

end Vec2

namespace Vec3

def add (a b : Vec3) : Vec3 := ⟨a.x + b.x, a.y + b.y, a.z + b.z⟩

def sub (a b : Vec3) : Vec3 := ⟨a.x - b.x, a.y - b.y, a.z - b.z⟩

def neg (a : Vec3) : Vec3 := ⟨-a.x, -a.y, -a.z⟩

def scale (a : Vec3) (s : ℚ) : Vec3 := ⟨a.x * s, a.y * s, a.z * s⟩

def dot (a b : Vec3) : ℚ := a.x * b.x + a.y * b.y + a.z * b.z

def cross (a b : Vec3) : Vec3 :=
  ⟨a.y * b.z - a.z * b.y, a.z * b.x - a.x * b.z, a.x * b.y - a.y * b.x⟩

/-- Squared Euclidean length (`length_sq`). -/
def lengthSq (a : Vec3) : ℚ := a.x * a.x + a.y * a.y + a.z * a.z

instance : Add Vec3 := ⟨add⟩

instance : Sub Vec3 := ⟨sub⟩

instance : Neg Vec3 := ⟨neg⟩

def zero : Vec3 := ⟨0, 0, 0⟩

/-- Linear interpolation `lerp(a, b, t) = a + (b - a) * t`. -/
def lerp (a b : Vec3) (t : ℚ) : Vec3 := a.add ((b.sub a).scale t)

end Vec3

namespace Vec4

def add (a b : Vec4) : Vec4 := ⟨a.x + b.x, a.y + b.y, a.z + b.z, a.w + b.w⟩

def scale (a : Vec4) (s : ℚ) : Vec4 := ⟨a.x * s, a.y * s, a.z * s, a.w * s⟩

def zero : Vec4 := ⟨0, 0, 0, 0⟩

/-- The xyz part of a `float4` (the source's `(float3&)t` reinterpretation). -/
def xyz (a : Vec4) : Vec3 := ⟨a.x, a.y, a.z⟩

/-- Overwrite only the xyz part, keeping w (source writes `(float3&)tangents[vi]`). -/
def setXyz (a : Vec4) (v : Vec3) : Vec4 := ⟨v.x, v.y, v.z, a.w⟩

end Vec4

/-- Scalar `clamp01` / `saturate`: clamp to the interval [0,1]. -/
def clamp01 (x : ℚ) : ℚ := max 0 (min 1 x)

/-- Scalar linear interpolation. -/
def lerpQ (a b t : ℚ) : ℚ := a + (b - a) * t

/-- Embedded row-major 4x4 float matrix (`float4x4`); entry `mRC` is row R, column C. -/
structure Mat4 where
  m00 : ℚ
  m01 : ℚ
  m02 : ℚ
  m03 : ℚ
  m10 : ℚ
  m11 : ℚ
  m12 : ℚ
  m13 : ℚ
  m20 : ℚ
  m21 : ℚ
  m22 : ℚ
  m23 : ℚ
  m30 : ℚ
  m31 : ℚ
  m32 : ℚ
  m33 : ℚ
deriving DecidableEq, Repr

namespace Mat4

/-- `float4x4::identity()`. -/
def id : Mat4 := ⟨1, 0, 0, 0, 0, 1, 0, 0, 0, 0, 1, 0, 0, 0, 0, 1⟩

/-- Matrix product, column-vector convention: `(mul A B) v = A (B v)`. -/
def mul (a b : Mat4) : Mat4 :=
  ⟨a.m00 * b.m00 + a.m01 * b.m10 + a.m02 * b.m20 + a.m03 * b.m30,
   a.m00 * b.m01 + a.m01 * b.m11 + a.m02 * b.m21 + a.m03 * b.m31,
   a.m00 * b.m02 + a.m01 * b.m12 + a.m02 * b.m22 + a.m03 * b.m32,
   a.m00 * b.m03 + a.m01 * b.m13 + a.m02 * b.m23 + a.m03 * b.m33,
   a.m10 * b.m00 + a.m11 * b.m10 + a.m12 * b.m20 + a.m13 * b.m30,
   a.m10 * b.m01 + a.m11 * b.m11 + a.m12 * b.m21 + a.m13 * b.m31,
   a.m10 * b.m02 + a.m11 * b.m12 + a.m12 * b.m22 + a.m13 * b.m32,
   a.m10 * b.m03 + a.m11 * b.m13 + a.m12 * b.m23 + a.m13 * b.m33,
   a.m20 * b.m00 + a.m21 * b.m10 + a.m22 * b.m20 + a.m23 * b.m30,
   a.m20 * b.m01 + a.m21 * b.m11 + a.m22 * b.m21 + a.m23 * b.m31,
   a.m20 * b.m02 + a.m21 * b.m12 + a.m22 * b.m22 + a.m23 * b.m32,
   a.m20 * b.m03 + a.m21 * b.m13 + a.m22 * b.m23 + a.m23 * b.m33,
   a.m30 * b.m00 + a.m31 * b.m10 + a.m32 * b.m20 + a.m33 * b.m30,
   a.m30 * b.m01 + a.m31 * b.m11 + a.m32 * b.m21 + a.m33 * b.m31,
   a.m30 * b.m02 + a.m31 * b.m12 + a.m32 * b.m22 + a.m33 * b.m32,
   a.m30 * b.m03 + a.m31 * b.m13 + a.m32 * b.m23 + a.m33 * b.m33⟩

/-- `mul_p`: transform a point (w = 1), dropping the resulting w component. -/
def mulP (m : Mat4) (v : Vec3) : Vec3 :=
  ⟨m.m00 * v.x + m.m01 * v.y + m.m02 * v.z + m.m03,
   m.m10 * v.x + m.m11 * v.y + m.m12 * v.z + m.m13,
   m.m20 * v.x + m.m21 * v.y + m.m22 * v.z + m.m23⟩

/-- `mul_v`: transform a direction (w = 0). -/
def mulV (m : Mat4) (v : Vec3) : Vec3 :=
  ⟨m.m00 * v.x + m.m01 * v.y + m.m02 * v.z,
   m.m10 * v.x + m.m11 * v.y + m.m12 * v.z,
   m.m20 * v.x + m.m21 * v.y + m.m22 * v.z⟩

/-- `mul4`: transform a point (w = 1), keeping all four components. -/
def mul4 (m : Mat4) (v : Vec3) : Vec4 :=
  ⟨m.m00 * v.x + m.m01 * v.y + m.m02 * v.z + m.m03,
   m.m10 * v.x + m.m11 * v.y + m.m12 * v.z + m.m13,
   m.m20 * v.x + m.m21 * v.y + m.m22 * v.z + m.m23,
   m.m30 * v.x + m.m31 * v.y + m.m32 * v.z + m.m33⟩

/-- `translate(pos)`: translation matrix (column-vector convention). -/
def translate (t : Vec3) : Mat4 :=
  ⟨1, 0, 0, t.x, 0, 1, 0, t.y, 0, 0, 1, t.z, 0, 0, 0, 1⟩

/-- `scale44(value)`: nonuniform scale matrix. -/
def scale44 (s : Vec3) : Mat4 :=
  ⟨s.x, 0, 0, 0, 0, s.y, 0, 0, 0, 0, s.z, 0, 0, 0, 0, 1⟩

/-- The bottom row is `(0,0,0,1)`: the matrix is affine, so point transforms compose. -/
def affineRow (m : Mat4) : Prop := m.m30 = 0 ∧ m.m31 = 0 ∧ m.m32 = 0 ∧ m.m33 = 1

instance (m : Mat4) : Decidable m.affineRow := by
  unfold affineRow; infer_instance

/-- Determinant of a 3x3 block given by nine entries. -/
def det3 (a b c d e f g h i : ℚ) : ℚ :=
  a * (e * i - f * h) - b * (d * i - f * g) + c * (d * h - e * g)

/-- Determinant, expansion along the first row. -/
def det (m : Mat4) : ℚ :=
  m.m00 * det3 m.m11 m.m12 m.m13 m.m21 m.m22 m.m23 m.m31 m.m32 m.m33
  - m.m01 * det3 m.m10 m.m12 m.m13 m.m20 m.m22 m.m23 m.m30 m.m32 m.m33
  + m.m02 * det3 m.m10 m.m11 m.m13 m.m20 m.m21 m.m23 m.m30 m.m31 m.m33
  - m.m03 * det3 m.m10 m.m11 m.m12 m.m20 m.m21 m.m22 m.m30 m.m31 m.m32

/-- Modelled from the spec: the math library's `invert` (absent from src/) is the
standard matrix inverse, computed here by adjugate over the exact determinant;
a singular matrix falls back to the identity (claims never rely on that case). -/
def invert (m : Mat4) : Mat4 :=
  let d := det m
  if d = 0 then Mat4.id else
  ⟨ (det3 m.m11 m.m12 m.m13 m.m21 m.m22 m.m23 m.m31 m.m32 m.m33) / d,
   -(det3 m.m01 m.m02 m.m03 m.m21 m.m22 m.m23 m.m31 m.m32 m.m33) / d,
    (det3 m.m01 m.m02 m.m03 m.m11 m.m12 m.m13 m.m31 m.m32 m.m33) / d,
   -(det3 m.m01 m.m02 m.m03 m.m11 m.m12 m.m13 m.m21 m.m22 m.m23) / d,
   -(det3 m.m10 m.m12 m.m13 m.m20 m.m22 m.m23 m.m30 m.m32 m.m33) / d,
    (det3 m.m00 m.m02 m.m03 m.m20 m.m22 m.m23 m.m30 m.m32 m.m33) / d,
   -(det3 m.m00 m.m02 m.m03 m.m10 m.m12 m.m13 m.m30 m.m32 m.m33) / d,
    (det3 m.m00 m.m02 m.m03 m.m10 m.m12 m.m13 m.m20 m.m22 m.m23) / d,
    (det3 m.m10 m.m11 m.m13 m.m20 m.m21 m.m23 m.m30 m.m31 m.m33) / d,
   -(det3 m.m00 m.m01 m.m03 m.m20 m.m21 m.m23 m.m30 m.m31 m.m33) / d,
    (det3 m.m00 m.m01 m.m03 m.m10 m.m11 m.m13 m.m30 m.m31 m.m33) / d,
   -(det3 m.m00 m.m01 m.m03 m.m10 m.m11 m.m13 m.m20 m.m21 m.m23) / d,
   -(det3 m.m10 m.m11 m.m12 m.m20 m.m21 m.m22 m.m30 m.m31 m.m32) / d,
    (det3 m.m00 m.m01 m.m02 m.m20 m.m21 m.m22 m.m30 m.m31 m.m32) / d,
   -(det3 m.m00 m.m01 m.m02 m.m10 m.m11 m.m12 m.m30 m.m31 m.m32) / d,
    (det3 m.m00 m.m01 m.m02 m.m10 m.m11 m.m12 m.m20 m.m21 m.m22) / d⟩

end Mat4

/-- Embedded quaternion (`quatf`), components (x, y, z, w). -/
structure Quat where
  x : ℚ
  y : ℚ
  z : ℚ
  w : ℚ
deriving DecidableEq, Repr

namespace Quat

/-- `quatf::identity()`. -/
def id : Quat := ⟨0, 0, 0, 1⟩

/-- Modelled from the spec: `invert` of a (unit) quaternion is its conjugate. -/
def invert (q : Quat) : Quat := ⟨-q.x, -q.y, -q.z, q.w⟩

/-- Modelled from the spec: `to_mat4x4`, the standard rotation matrix of a
unit quaternion (a polynomial formula, exact over ℚ). -/
def toMat4 (q : Quat) : Mat4 :=
  ⟨1 - 2 * (q.y * q.y + q.z * q.z), 2 * (q.x * q.y - q.z * q.w),
     2 * (q.x * q.z + q.y * q.w), 0,
   2 * (q.x * q.y + q.z * q.w), 1 - 2 * (q.x * q.x + q.z * q.z),
     2 * (q.y * q.z - q.x * q.w), 0,
   2 * (q.x * q.z - q.y * q.w), 2 * (q.y * q.z + q.x * q.w),
     1 - 2 * (q.x * q.x + q.y * q.y), 0,
   0, 0, 0, 1⟩

end Quat

/-- `npEpsilon` (1e-7f, `#define` in the source). -/
def npEpsilon : ℚ := 1 / 10 ^ 7

/-- `FLT_MIN`, the smallest positive normal float, exactly 2⁻¹²⁶. -/
def fltMin : ℚ := 1 / 2 ^ 126

/-- `FLT_MAX`, modelled as an upper bound beyond every finite float value. -/
def fltMax : ℚ := 2 ^ 128

/-- Squared distance between two points; `length(a - b) < c` is embedded as
`distSq a b < c²`, which is exactly equivalent for `c ≥ 0`. -/
def distSq (a b : Vec3) : ℚ := (a.sub b).lengthSq

/-- Modelled from the spec: the test `angle_between(a, b) * Rad2Deg <= θ`
for `θ ∈ [0°,180°]`, expressed exactly over ℚ as `cos(angle(a,b)) ≥ c`
with `c = cos θ`, i.e. `dot a b ≥ c·|a|·|b|`, decided by sign-aware
comparison of squares (no square roots needed). -/
def cosGe (a b : Vec3) (c : ℚ) : Bool :=
  let d := a.dot b
  let m := a.lengthSq * b.lengthSq
  if 0 ≤ c then decide (0 ≤ d) && decide (c ^ 2 * m ≤ d ^ 2)
  else decide (0 ≤ d) || decide (d ^ 2 ≤ c ^ 2 * m)

/-- Modelled from the spec: `near_equal(a, b, tol)` of the math library —
the two scalars differ by less than the tolerance. -/
def nearEqual (a b tol : ℚ) : Bool := decide (|a - b| < tol)

/-- `plane_distance(p, n)`: signed distance to the plane through the origin
with (unit) normal `n`; positive on the side the normal points to. -/
def planeDistance (p n : Vec3) : ℚ := p.dot n

/-- `plane_mirror(v, n)`: reflect across the plane, negating twice the signed
distance along the normal. -/
def planeMirror (v n : Vec3) : Vec3 := v.sub (n.scale (2 * planeDistance v n))

/-- Embedded `npMeshData`: a non-owning view over the caller's flat buffers.
Null buffers are modelled as whatever list the caller passes (the operations
embedded below read them with a default just as the source reads raw
pointers); the per-claim theorems state the length hypotheses they need. -/
structure MeshData where
  indices : List ℕ
  vertices : List Vec3
  normals : List Vec3
  tangents : List Vec4
  uv : List Vec2
  selection : List ℚ
  num_vertices : ℕ
  num_triangles : ℕ
  transform : Mat4
deriving Repr

/-- The source's uniform selection write `selection[vi] = clamp01(selection[vi] + s)`. -/
def bump (d x : ℚ) : ℚ := clamp01 (x + d)

/-- One selection write at index `i` with contribution `d`. -/
def bumpAt (sel : List ℚ) (i : ℕ) (d : ℚ) : List ℚ := sel.set i (bump d (sel.getD i 0))

/-- A sequence of selection writes, one per listed index (the shape of the
`SelectEdge`/`SelectHole`/`SelectConnected` callbacks and of the triangle pick). -/
def applyBumps (sel : List ℚ) (d : ℚ) (ids : List ℕ) : List ℚ :=
  ids.foldl (fun s i => bumpAt s i d) sel

/-- The shape of the per-vertex selection loops (`npSelectRect`, `npSelectLasso`,
`npSelectBrush`, `SelectInside`): scan vertex indices `0..n-1` in order and bump
index `vi` by `dfn vi` whenever `cond vi` holds.  `parallel_for_blocked` writes
only the slot each task owns, so the sequential scan is the spec's semantics. -/
def bumpFoldRange (n : ℕ) (cond : ℕ → Bool) (dfn : ℕ → ℚ) (sel : List ℚ) : List ℚ :=
  (List.range n).foldl (fun s vi => if cond vi then bumpAt s vi (dfn vi) else s) sel

/-- `GetBrushSampleIndex`: `int(clamp01(1 - distance/bradius) * (num_bsamples - 1))`;
the C cast truncates toward zero, which on the nonnegative argument is the floor. -/
def GetBrushSampleIndex (distance bradius : ℚ) (num_bsamples : ℕ) : ℕ :=
  (⌊clamp01 (1 - distance / bradius) * ((num_bsamples : ℚ) - 1)⌋).toNat

/-- `GetBrushSample`: look the brush falloff curve up at the bucket index
(`num_bsamples` is the sample list's length). -/
def GetBrushSample (distance bradius : ℚ) (bsamples : List ℚ) : ℚ :=
  bsamples.getD (GetBrushSampleIndex distance bradius bsamples.length) 0

/-- The candidate gathering of `npSelectNearestImpl`: a vertex is kept when
its projection lies inside the screen rectangle with `vp.z > 0` and it passes
the optional front-face filter; the kept entry pairs the vertex index with its
screen distance to the rectangle's center.  At most `max_inside = 64` entries
are kept, in vertex order (the source's parallel insertion order is
unspecified; the sequential order is one admissible schedule).  `ffHit vi`
abstracts the front-face raycast test (`RaycastWithoutTransform` from the
camera towards vertex `vi` hits the mesh within 0.01 of the vertex, a
primitive absent from src/); `len2` abstracts the Euclidean `float2` length
(irrational over ℚ). -/
def pickCandidates (model : MeshData) (mvp : Mat4) (rmin rmax : Vec2)
    (frontface_only : Bool) (ffHit : ℕ → Bool) (len2 : Vec2 → ℚ) :
    List (ℕ × ℚ) :=
  let rcenter := (rmin.add rmax).scale (1 / 2)
  ((List.range model.num_vertices).filterMap fun vi =>
    let vp := mvp.mul4 (model.vertices.getD vi Vec3.zero)
    let sp : Vec2 := ⟨vp.x / vp.w, vp.y / vp.w⟩
    if (rmin.x ≤ sp.x ∧ sp.x ≤ rmax.x ∧ rmin.y ≤ sp.y ∧ sp.y ≤ rmax.y ∧ 0 < vp.z)
        ∧ (frontface_only = false ∨ ffHit vi = true) then
      some (vi, len2 (sp.sub rcenter))
    else none).take 64

/-- The reduction step of `npSelectNearestImpl`: within an `npEpsilon` distance
tie prefer the candidate facing the camera least directly (smaller facing
value); otherwise take a strictly nearer candidate.  `nrm` abstracts
`normalize` (irrational over ℚ). -/
def pickStep (model : MeshData) (lcampos : Vec3) (nrm : Vec3 → Vec3)
    (st : ℕ × ℚ × ℚ) (cand : ℕ × ℚ) : ℕ × ℚ × ℚ :=
  let dir := nrm ((model.vertices.getD cand.1 Vec3.zero).sub lcampos)
  let facing := (model.normals.getD cand.1 Vec3.zero).dot dir
  if nearEqual cand.2 st.2.1 npEpsilon then
    if facing < st.2.2 then (cand.1, cand.2, facing) else st
  else if cand.2 < st.2.1 then (cand.1, cand.2, facing)
  else st

/-- `npSelectNearestImpl`: gather the candidates, then reduce starting from
vertex 0, distance `FLT_MAX`, facing 1. -/
def npSelectNearestImpl (model : MeshData) (mvp : Mat4) (rmin rmax : Vec2)
    (campos : Vec3) (frontface_only : Bool) (ffHit : ℕ → Bool)
    (len2 : Vec2 → ℚ) (nrm : Vec3 → Vec3) : Option ℕ :=
  let lcampos := (Mat4.invert model.transform).mulP campos
  let insider := pickCandidates model mvp rmin rmax frontface_only ffHit len2
  if insider.isEmpty then none
  else some (insider.foldl (pickStep model lcampos nrm) ((0 : ℕ), fltMax, (1 : ℚ))).1

/-- `npSelectSingle`: bump the picked vertex; returns (result, new selection). -/
def npSelectSingle (model : MeshData) (mvp : Mat4) (rmin rmax : Vec2)
    (campos : Vec3) (strength : ℚ) (frontface_only : Bool) (ffHit : ℕ → Bool)
    (len2 : Vec2 → ℚ) (nrm : Vec3 → Vec3) : ℕ × List ℚ :=
  match npSelectNearestImpl model mvp rmin rmax campos frontface_only ffHit len2 nrm with
  | some pick_index => (1, bumpAt model.selection pick_index strength)
  | none => (0, model.selection)

/-- `npSelectTriangle`.  `rayc` is the result of `Raycast(model, pos, dir)`
(Modelled from the spec: the nearest ray-triangle hit, `some (tindex, distance)`
or `none`; the intersection primitive is absent from src/).  On a hit the three
vertices of the hit triangle are bumped in index order. -/
def npSelectTriangle (model : MeshData) (rayc : Option (ℕ × ℚ)) (strength : ℚ) :
    ℕ × List ℚ :=
  match rayc with
  | some (ti, _) =>
    (1, applyBumps model.selection strength
      [model.indices.getD (ti * 3) 0, model.indices.getD (ti * 3 + 1) 0,
       model.indices.getD (ti * 3 + 2) 0])
  | none => (0, model.selection)

/-- `npSelectEdge`.  `matched` is the vertex list the `SelectEdge` helper feeds
to the callback (Modelled from the spec: the target vertices on the topological
boundary, the helper being absent from src/; the targets are all vertices, or
the currently selected ones when `mask` is set).  With `clear` the selection is
zeroed (`memset`) before the callback writes. -/
def npSelectEdge (model : MeshData) (strength : ℚ) (clear : Bool)
    (matched : List ℕ) : ℕ × List ℚ :=
  let base := if clear then List.replicate model.num_vertices (0 : ℚ) else model.selection
  (matched.length, applyBumps base strength matched)

/-- `npSelectHole`: same write pattern as `npSelectEdge`, `matched` being the
`SelectHole` helper's callback list (Modelled from the spec: vertices bounding
internal gaps). -/
def npSelectHole (model : MeshData) (strength : ℚ) (clear : Bool)
    (matched : List ℕ) : ℕ × List ℚ :=
  let base := if clear then List.replicate model.num_vertices (0 : ℚ) else model.selection
  (matched.length, applyBumps base strength matched)

/-- `npSelectConnected`: same write pattern, `matched` being the
`SelectConnected` helper's callback list (Modelled from the spec: the flood
fill from the currently selected vertices along shared edges). -/
def npSelectConnected (model : MeshData) (strength : ℚ) (clear : Bool)
    (matched : List ℕ) : ℕ × List ℚ :=
  let base := if clear then List.replicate model.num_vertices (0 : ℚ) else model.selection
  (matched.length, applyBumps base strength matched)

/-- The screen-space test of `npSelectRect`: project through the MVP matrix,
perspective-divide, test against the rectangle and `vp.z > 0`, then the
optional front-face filter (`ffHit`, abstracted as in `npSelectNearestImpl`). -/
def rectCond (model : MeshData) (mvp : Mat4) (rmin rmax : Vec2)
    (frontface_only : Bool) (ffHit : ℕ → Bool) (vi : ℕ) : Bool :=
  let vp := mvp.mul4 (model.vertices.getD vi Vec3.zero)
  let sp : Vec2 := ⟨vp.x / vp.w, vp.y / vp.w⟩
  (decide (rmin.x ≤ sp.x) && decide (sp.x ≤ rmax.x) &&
   decide (rmin.y ≤ sp.y) && decide (sp.y ≤ rmax.y) && decide (0 < vp.z)) &&
  (!frontface_only || ffHit vi)

/-- `npSelectRect`: bump every vertex passing the rectangle test by `strength`;
returns (count of hits, new selection). -/
def npSelectRect (model : MeshData) (mvp : Mat4) (rmin rmax : Vec2)
    (strength : ℚ) (frontface_only : Bool) (ffHit : ℕ → Bool) : ℕ × List ℚ :=
  let cond := rectCond model mvp rmin rmax frontface_only ffHit
  (((List.range model.num_vertices).filter cond).length,
   bumpFoldRange model.num_vertices cond (fun _ => strength) model.selection)

/-- The per-vertex test of `npSelectLasso`: `polyInside sp` is
`PolyInside(polyx, polyy, n, minp, maxp, sp)` (Modelled from the spec: even-odd
polygon inclusion with a bounding-box pre-filter; the helper is absent from
src/), then the optional front-face filter. -/
def lassoCond (model : MeshData) (mvp : Mat4) (polyInside : Vec2 → Bool)
    (frontface_only : Bool) (ffHit : ℕ → Bool) (vi : ℕ) : Bool :=
  let vp := mvp.mul4 (model.vertices.getD vi Vec3.zero)
  let sp : Vec2 := ⟨vp.x / vp.w, vp.y / vp.w⟩
  polyInside sp && (!frontface_only || ffHit vi)

/-- `npSelectLasso`: returns 0 and leaves the selection untouched when fewer
than 3 lasso points are given; otherwise bumps every vertex whose projection
lies inside the lasso polygon. -/
def npSelectLasso (model : MeshData) (mvp : Mat4) (lasso : List Vec2)
    (strength : ℚ) (frontface_only : Bool) (ffHit : ℕ → Bool)
    (polyInside : Vec2 → Bool) : ℕ × List ℚ :=
  if lasso.length < 3 then (0, model.selection)
  else
    let cond := lassoCond model mvp polyInside frontface_only ffHit
    (((List.range model.num_vertices).filter cond).length,
     bumpFoldRange model.num_vertices cond (fun _ => strength) model.selection)

/-- The `SelectInside` test: the world-space vertex lies within `radius` of
`pos` (squared comparison, exactly the source's `dsq <= rq`). -/
def insideCond (model : MeshData) (pos : Vec3) (radius : ℚ) (vi : ℕ) : Bool :=
  decide (distSq (model.transform.mulP (model.vertices.getD vi Vec3.zero)) pos ≤ radius ^ 2)

/-- `npSelectBrush`: `SelectInside` with per-vertex contribution
`GetBrushSample(d, radius, bsamples) * strength`, where `d = √dsq` is the
true distance; `sqrtQ` abstracts the square root (irrational over ℚ). -/
def npSelectBrush (model : MeshData) (pos : Vec3) (radius strength : ℚ)
    (bsamples : List ℚ) (sqrtQ : ℚ → ℚ) : ℕ × List ℚ :=
  let cond := insideCond model pos radius
  let dfn := fun vi =>
    GetBrushSample
      (sqrtQ (distSq (model.transform.mulP (model.vertices.getD vi Vec3.zero)) pos))
      radius bsamples * strength
  (((List.range model.num_vertices).filter cond).length,
   bumpFoldRange model.num_vertices cond dfn model.selection)

/-- The scan step of `GetFurthestDistance`: a vertex passing the mask whose
squared local distance strictly exceeds the tracked value replaces it. -/
def furthestStep (pass : ℕ → Bool) (dsq : ℕ → ℚ) (st : ℚ × ℕ) (vi : ℕ) : ℚ × ℕ :=
  if pass vi then (if st.1 < dsq vi then (dsq vi, vi) else st) else st

/-- `GetFurthestDistance`: scan all vertices passing the mask, tracking the
largest squared distance to `lpos` in model-local space, seeded with `FLT_MIN`;
report success only if the tracked value exceeds `FLT_MIN`, returning the
tracked index and its world-space distance (`len3` abstracts the Euclidean
length, irrational over ℚ). -/
def GetFurthestDistance (model : MeshData) (pos : Vec3) (mask : Bool)
    (len3 : Vec3 → ℚ) : Option (ℕ × ℚ) :=
  let lpos := (Mat4.invert model.transform).mulP pos
  let st := (List.range model.num_vertices).foldl
    (furthestStep (fun vi => !mask || decide (0 < model.selection.getD vi 0))
      (fun vi => distSq (model.vertices.getD vi Vec3.zero) lpos)) (fltMin, 0)
  if fltMin < st.1 then
    some (st.2, len3 ((model.transform.mulP (model.vertices.getD st.2 Vec3.zero)).sub pos))
  else none

/-- Running state of the `npWeld` scan, instrumented with the weld groups
(seed index and member list) that the source only counts. -/
structure WeldState where
  normals : List Vec3
  checked : List Bool
  groups : List (ℕ × List ℕ)
  count : ℕ
deriving Repr

/-- One step of the inner collection loop of `npWeld`: vertex `i` joins the
group seeded at `vi` when it is a different, not yet processed vertex lying
within `npEpsilon` of the seed (squared comparison) whose normal passes the
angle test against the accumulator `nAcc` (the seed's normal, grown by each
accepted member when `smoothing` is set — the source accumulates into the
same `n` it tests against).  `c` is the cosine of `weld_angle` (the test
`angle_between * Rad2Deg <= weld_angle` is embedded as `cosGe`, which is
exact for a rational cosine threshold). -/
def weldCollect (verts norms : List Vec3) (smoothing : Bool) (c : ℚ) (vi : ℕ)
    (st : Vec3 × List ℕ × List Bool) (i : ℕ) : Vec3 × List ℕ × List Bool :=
  let nAcc := st.1
  let shared := st.2.1
  let checked := st.2.2
  if vi ≠ i ∧ checked.getD i false = false
      ∧ distSq (verts.getD i Vec3.zero) (verts.getD vi Vec3.zero) < npEpsilon ^ 2
      ∧ cosGe nAcc (norms.getD i Vec3.zero) c = true then
    (if smoothing then nAcc.add (norms.getD i Vec3.zero) else nAcc,
     shared ++ [i], checked.set i true)
  else st

/-- One step of the outer `npWeld` scan: skip processed or mask-excluded
vertices, collect the seed's group, and if it is nonempty assign the
normalized accumulator to the seed and every member (`nrm` abstracts
`normalize`, irrational over ℚ). -/
def weldOuter (verts : List Vec3) (sel : List ℚ) (mask smoothing : Bool)
    (c : ℚ) (nrm : Vec3 → Vec3) (n : ℕ) (st : WeldState) (vi : ℕ) : WeldState :=
  if st.checked.getD vi false = true then st
  else if (if mask then sel.getD vi 0 else 1) = 0 then st
  else
    let res := (List.range n).foldl (weldCollect verts st.normals smoothing c vi)
      (st.normals.getD vi Vec3.zero, [], st.checked)
    if res.2.1 = [] then { st with checked := res.2.2 }
    else
      let nn := nrm res.1
      { normals := res.2.1.foldl (fun ns si => ns.set si nn) (st.normals.set vi nn),
        checked := res.2.2,
        groups := st.groups ++ [(vi, res.2.1)],
        count := st.count + 1 }

/-- `npWeld`, instrumented: the full scan over vertices `0..num_vertices-1`. -/
def npWeldAux (model : MeshData) (smoothing : Bool) (c : ℚ) (mask : Bool)
    (nrm : Vec3 → Vec3) : WeldState :=
  (List.range model.num_vertices).foldl
    (weldOuter model.vertices model.selection mask smoothing c nrm model.num_vertices)
    ⟨model.normals, List.replicate model.num_vertices false, [], 0⟩

/-- `npWeld`: returns (weld group count, final normals). -/
def npWeld (model : MeshData) (smoothing : Bool) (c : ℚ) (mask : Bool)
    (nrm : Vec3 → Vec3) : ℕ × List Vec3 :=
  let st := npWeldAux model smoothing c mask nrm
  (st.count, st.normals)

/-- The partner test of `npBuildMirroringRelation` for a candidate `vi` (with
negative plane distance) against vertex `i`: `i` lies on the positive side and
its mirrored position coincides with `vi`'s within `epsilon` (squared
comparison), and its mirrored normal agrees with `vi`'s normal
(`dot ≥ 0.99`). -/
def mirrorMatch (model : MeshData) (mirror_plane : Vec3) (epsilon : ℚ)
    (distances : List ℚ) (vi i : ℕ) : Bool :=
  let d2 := distances.getD i 0
  decide (0 < d2) &&
  decide (distSq (model.vertices.getD vi Vec3.zero)
    ((model.vertices.getD i Vec3.zero).sub (mirror_plane.scale (d2 * 2))) < epsilon ^ 2) &&
  decide ((99 : ℚ) / 100 ≤ (model.normals.getD vi Vec3.zero).dot
    (planeMirror (model.normals.getD i Vec3.zero) mirror_plane))

/-- `npBuildMirroringRelation`: per vertex, `-1` = no partner, `-2` = on the
mirror plane, `≥ 0` = partner index.  The inner for-loop with `break` is the
fold below, short-circuiting on the first match.  `tol` is the default
tolerance of `near_equal(d1, 0.0f)` (the math library's `muEpsilon`, absent
from src/). -/
def npBuildMirroringRelation (model : MeshData) (mirror_plane : Vec3)
    (epsilon tol : ℚ) : List ℤ :=
  let n := model.num_vertices
  let distances := (List.range n).map fun vi =>
    planeDistance (model.vertices.getD vi Vec3.zero) mirror_plane
  (List.range n).map fun vi =>
    let d1 := distances.getD vi 0
    if d1 < 0 then
      match (List.range n).foldl (fun acc i =>
        match acc with
        | some j => some j
        | none => if mirrorMatch model mirror_plane epsilon distances vi i
                  then some i else none) (none : Option ℕ) with
      | some i => (i : ℤ)
      | none => -1
    else if nearEqual d1 0 tol then -2
    else -1

/-- The ray modes of `npProjectVerticesImpl`. -/
inductive ProjMode where
  | forward
  | backward
  | forwardAndBackward
deriving DecidableEq, Repr

/-- The forward leg of the per-vertex ray pick: a forward hit strictly within
`max_distance` when the mode casts forward rays. -/
def projForward (rayHit : Vec3 → Vec3 → Option (ℕ × ℚ)) (genN : Vec3 → ℕ → Vec3)
    (genT : Vec3 → ℕ → Vec4) (rpos rdir : Vec3) (mode : ProjMode)
    (max_distance : ℚ) : Option (ℚ × Vec3 × Vec3 × Vec4) :=
  if mode = ProjMode.forward ∨ mode = ProjMode.forwardAndBackward then
    match rayHit rpos rdir with
    | some (ti, distance) =>
      if distance < max_distance then
        some (distance, rpos.add (rdir.scale distance),
          genN (rpos.add (rdir.scale distance)) ti,
          genT (rpos.add (rdir.scale distance)) ti)
      else none
    | none => none
  else none

/-- The backward leg: a backward hit strictly within `max_distance` replaces
the forward result only when it is strictly closer. -/
def projBackward (rayHit : Vec3 → Vec3 → Option (ℕ × ℚ)) (genN : Vec3 → ℕ → Vec3)
    (genT : Vec3 → ℕ → Vec4) (rpos rdir : Vec3) (mode : ProjMode)
    (max_distance : ℚ) (st1 : Option (ℚ × Vec3 × Vec3 × Vec4)) :
    Option (ℚ × Vec3 × Vec3 × Vec4) :=
  if mode = ProjMode.backward ∨ mode = ProjMode.forwardAndBackward then
    match rayHit rpos rdir.neg with
    | some (ti, distance) =>
      let better : Bool := match st1 with
        | none => true
        | some (md, _, _, _) => decide (distance < md)
      if distance < max_distance ∧ better = true then
        some (distance, rpos.add (rdir.neg.scale distance),
          genN (rpos.add (rdir.neg.scale distance)) ti,
          genT (rpos.add (rdir.neg.scale distance)) ti)
      else st1
    | none => st1
  else st1

/-- The per-vertex body of `npProjectVerticesImpl`.  Abstracted parameters for
primitives absent from src/: `rayHit pos dir` is
`RayTrianglesIntersectionSoA` against the flattened target triangles
(Modelled from the spec: the nearest hit as `some (triangle, distance)`, or
`none`); `genN` / `genT` are the source's `gen_normal` / `gen_tangent`
closures (barycentric interpolation of the target's normals / tangents at
the hit point, normalized — returning zero when the target stream is null);
`nrm` is `normalize`.  The forward ray is tried first when the mode allows
it; the backward ray replaces its hit only when it hits strictly closer
within `max_distance`; on a hit, the PNT bitmask and the model's own
normal/tangent streams gate which attributes are lerped in by `s`. -/
def projVertexStep (model : MeshData) (rayHit : Vec3 → Vec3 → Option (ℕ × ℚ))
    (genN : Vec3 → ℕ → Vec3) (genT : Vec3 → ℕ → Vec4)
    (hasModelNormals hasModelTangents : Bool) (nrm : Vec3 → Vec3)
    (ray_dirs : ℕ → Vec3) (mode : ProjMode) (max_distance : ℚ) (PNT : ℕ)
    (mask : Bool) (vi : ℕ) : Vec3 × Vec3 × Vec4 :=
  let oldV := model.vertices.getD vi Vec3.zero
  let oldN := model.normals.getD vi Vec3.zero
  let oldT := model.tangents.getD vi Vec4.zero
  let s := if mask then model.selection.getD vi 0 else 1
  if s = 0 then (oldV, oldN, oldT)
  else
    let rpos := oldV
    let rdir := ray_dirs vi
    match projBackward rayHit genN genT rpos rdir mode max_distance
        (projForward rayHit genN genT rpos rdir mode max_distance) with
    | none => (oldV, oldN, oldT)
    | some (_, rv, rn, rt) =>
      (if PNT.testBit 0 then Vec3.lerp oldV rv s else oldV,
       if hasModelNormals ∧ PNT.testBit 1 then nrm (Vec3.lerp oldN rn s) else oldN,
       if hasModelTangents ∧ PNT.testBit 2 then
         oldT.setXyz (nrm (Vec3.lerp oldT.xyz rt.xyz s))
       else oldT)

/-- `npProjectVerticesImpl`: apply the per-vertex body to every vertex (the
`parallel_for` writes only the slot it owns); returns the new position,
normal and tangent streams. -/
def npProjectVerticesImpl (model : MeshData) (rayHit : Vec3 → Vec3 → Option (ℕ × ℚ))
    (genN : Vec3 → ℕ → Vec3) (genT : Vec3 → ℕ → Vec4)
    (hasModelNormals hasModelTangents : Bool) (nrm : Vec3 → Vec3)
    (ray_dirs : ℕ → Vec3) (mode : ProjMode) (max_distance : ℚ) (PNT : ℕ)
    (mask : Bool) : List Vec3 × List Vec3 × List Vec4 :=
  let f := projVertexStep model rayHit genN genT hasModelNormals hasModelTangents
    nrm ray_dirs mode max_distance PNT mask
  ((List.range model.num_vertices).map fun vi => (f vi).1,
   (List.range model.num_vertices).map fun vi => (f vi).2.1,
   (List.range model.num_vertices).map fun vi => (f vi).2.2)

/-- `npRotatePivotVertices`.  `angleOf` / `angleNaN` abstract `to_axis_angle`'s
angle output and its NaN-ness (Modelled from the spec: the angle of the
quaternion's axis-angle decomposition, `2·acos(w)` — irrational over ℚ, and
NaN outside the acos domain); `tol` is the default tolerance of
`near_equal(angle, 0.0f)`.  A near-zero or NaN angle returns immediately,
leaving every vertex untouched; otherwise each unmasked vertex is lerped
toward its image under the composite pivot rotation. -/
def npRotatePivotVertices (model : MeshData) (value : Quat) (pivot_pos : Vec3)
    (pivot_rot : Quat) (mask : Bool) (angleOf : Quat → ℚ) (angleNaN : Quat → Bool)
    (tol : ℚ) : List Vec3 :=
  if nearEqual (angleOf value) 0 tol || angleNaN value then model.vertices
  else
    let ptrans := (Quat.toMat4 (Quat.invert pivot_rot)).mul (Mat4.translate pivot_pos)
    let iptrans := Mat4.invert ptrans
    let trans := model.transform
    let itrans := Mat4.invert trans
    let to_pivot_space := trans.mul iptrans
    let to_local_space := ptrans.mul itrans
    let rotation := (to_pivot_space.mul (Quat.toMat4 value)).mul to_local_space
    (List.range model.num_vertices).map fun vi =>
      let s := if mask then model.selection.getD vi 0 else 1
      let v := model.vertices.getD vi Vec3.zero
      if s = 0 then v else Vec3.lerp v (rotation.mulP v) s

/-- Embedded `Weights4`: a fixed-size list of four (bone index, weight) pairs. -/
structure Weights4 where
  i0 : ℕ
  i1 : ℕ
  i2 : ℕ
  i3 : ℕ
  w0 : ℚ
  w1 : ℚ
  w2 : ℚ
  w3 : ℚ
deriving DecidableEq, Repr

instance : Inhabited Weights4 := ⟨⟨0, 0, 0, 0, 0, 0, 0, 0⟩⟩

/-- Embedded `npSkinData`. -/
structure SkinData where
  weights : List Weights4
  bones : List Mat4
  bindposes : List Mat4
  num_vertices : ℕ
  num_bones : ℕ
  root : Mat4
deriving Repr

/-- The position blend of `SkinningImpl`: sum of the four per-influence
transformed points, weighted by the stored weights (no renormalization). -/
def skinPoint (poses : List Mat4) (w : Weights4) (p : Vec3) : Vec3 :=
  ((((poses.getD w.i0 Mat4.id).mulP p).scale w.w0).add
    (((poses.getD w.i1 Mat4.id).mulP p).scale w.w1)).add
    (((((poses.getD w.i2 Mat4.id).mulP p).scale w.w2)).add
      (((poses.getD w.i3 Mat4.id).mulP p).scale w.w3))

/-- The position stream of `SkinningImpl` (the three attribute streams of the
source share no state and run independently; the skinning claims concern
positions, so the position stream is embedded). -/
def SkinningImplPoints (num_vertices : ℕ) (poses : List Mat4)
    (weights : List Weights4) (ipoints : List Vec3) : List Vec3 :=
  (List.range num_vertices).map fun vi =>
    skinPoint poses (weights.getD vi default) (ipoints.getD vi Vec3.zero)

/-- `npApplySkinning` (positions): per bone, pose = bindpose · bone · root⁻¹. -/
def npApplySkinningPoints (skin : SkinData) (ipoints : List Vec3) : List Vec3 :=
  let iroot := Mat4.invert skin.root
  let poses := (List.range skin.num_bones).map fun bi =>
    ((skin.bindposes.getD bi Mat4.id).mul (skin.bones.getD bi Mat4.id)).mul iroot
  SkinningImplPoints skin.num_vertices poses skin.weights ipoints

/-- `npApplyReverseSkinning` (positions): per bone, the inverse pose. -/
def npApplyReverseSkinningPoints (skin : SkinData) (ipoints : List Vec3) : List Vec3 :=
  let iroot := Mat4.invert skin.root
  let poses := (List.range skin.num_bones).map fun bi =>
    Mat4.invert (((skin.bindposes.getD bi Mat4.id).mul (skin.bones.getD bi Mat4.id)).mul iroot)
  SkinningImplPoints skin.num_vertices poses skin.weights ipoints

/-- All entries of a selection buffer lie in [0,1] (the spec's data-model
invariant for selection weights). -/
def sel01 (l : List ℚ) : Prop := ∀ y ∈ l, 0 ≤ y ∧ y ≤ 1

/-! ### Helper lemmas -/

theorem clamp01_nonneg (x : ℚ) : 0 ≤ clamp01 x := le_max_left 0 _

theorem clamp01_le_one (x : ℚ) : clamp01 x ≤ 1 :=
  max_le (by norm_num) (min_le_left 1 x)

theorem bump_mem (d x : ℚ) : 0 ≤ bump d x ∧ bump d x ≤ 1 :=
  ⟨clamp01_nonneg _, clamp01_le_one _⟩

theorem getD_set_self {α : Type} (l : List α) (i : ℕ) (a d : α)
    (h : i < l.length) : (l.set i a).getD i d = a := by
  simp [List.getD, List.getElem?_set_self, h]

theorem getD_set_ne {α : Type} (l : List α) {i j : ℕ} (a d : α)
    (h : i ≠ j) : (l.set i a).getD j d = l.getD j d := by
  simp [List.getD, List.getElem?_set_ne h]

theorem getD_map_range {α : Type} (f : ℕ → α) {n i : ℕ} (d : α) (h : i < n) :
    ((List.range n).map f).getD i d = f i := by
  simp [List.getD, List.getElem?_map, List.getElem?_range, h]

theorem getD_map_range_ge {α : Type} (f : ℕ → α) {n i : ℕ} (d : α) (h : ¬ i < n) :
    ((List.range n).map f).getD i d = d := by
  have hlen : ((List.range n).map f).length ≤ i := by simpa using Nat.le_of_not_lt h
  simp [List.getD, List.getElem?_eq_none hlen]

theorem foldl_inv {α β : Type} (P : α → Prop) (f : α → β → α) {l : List β}
    {init : α} (h0 : P init) (hstep : ∀ s b, b ∈ l → P s → P (f s b)) :
    P (l.foldl f init) := by
  induction l generalizing init with
  | nil => exact h0
  | cons a l ih =>
    exact ih (hstep init a (by simp) h0) fun s b hb hs => hstep s b (by simp [hb]) hs

theorem sel01_bumpAt {sel : List ℚ} (h : sel01 sel) (i : ℕ) (d : ℚ) :
    sel01 (bumpAt sel i d) := by
  intro y hy
  rcases List.mem_or_eq_of_mem_set hy with hy' | hy'
  · exact h y hy'
  · subst hy'; exact bump_mem _ _

theorem sel01_applyBumps {sel : List ℚ} (h : sel01 sel) (d : ℚ) (ids : List ℕ) :
    sel01 (applyBumps sel d ids) :=
  foldl_inv sel01 _ h fun _ b _ hs => sel01_bumpAt hs b d

theorem sel01_bumpFoldRange {sel : List ℚ} (h : sel01 sel) (n : ℕ)
    (cond : ℕ → Bool) (dfn : ℕ → ℚ) : sel01 (bumpFoldRange n cond dfn sel) := by
  refine foldl_inv sel01 _ h fun s b _ hs => ?_
  by_cases hc : cond b = true
  · simpa [hc] using sel01_bumpAt hs b (dfn b)
  · simpa [hc] using hs

theorem sel01_replicate (n : ℕ) : sel01 (List.replicate n (0 : ℚ)) := by
  intro y hy
  rcases List.eq_of_mem_replicate hy with rfl
  exact ⟨le_refl 0, by norm_num⟩

theorem bumpAt_length (sel : List ℚ) (i : ℕ) (d : ℚ) :
    (bumpAt sel i d).length = sel.length := by
  simp [bumpAt]

theorem bumpAt_getD_self (sel : List ℚ) (i : ℕ) (d : ℚ) (h : i < sel.length) :
    (bumpAt sel i d).getD i 0 = bump d (sel.getD i 0) := by
  unfold bumpAt
  exact getD_set_self _ _ _ _ h

theorem bumpAt_getD_ne (sel : List ℚ) {i j : ℕ} (d : ℚ) (h : i ≠ j) :
    (bumpAt sel i d).getD j 0 = sel.getD j 0 := by
  unfold bumpAt
  exact getD_set_ne _ _ _ h

theorem applyBumps_length (sel : List ℚ) (d : ℚ) (ids : List ℕ) :
    (applyBumps sel d ids).length = sel.length := by
  refine foldl_inv (fun s : List ℚ => s.length = sel.length) _ rfl fun s b _ hs => ?_
  show (bumpAt s b d).length = sel.length
  rw [bumpAt_length]
  exact hs

theorem applyBumps_getD (d : ℚ) (ids : List ℕ) (sel : List ℚ) (i : ℕ)
    (h : i < sel.length) :
    (applyBumps sel d ids).getD i 0 = (bump d)^[ids.count i] (sel.getD i 0) := by
  induction ids generalizing sel with
  | nil => rfl
  | cons j rest ih =>
    have hlen : (bumpAt sel j d).length = sel.length := bumpAt_length _ _ _
    by_cases hji : j = i
    · subst hji
      rw [show applyBumps sel d (j :: rest) = applyBumps (bumpAt sel j d) d rest from rfl,
        ih (bumpAt sel j d) (by rw [hlen]; exact h)]
      rw [List.count_cons_self, Function.iterate_succ_apply,
        bumpAt_getD_self _ _ _ h]
    · rw [show applyBumps sel d (j :: rest) = applyBumps (bumpAt sel j d) d rest from rfl,
        ih (bumpAt sel j d) (by rw [hlen]; exact h)]
      rw [List.count_cons_of_ne (fun hh => hji hh.symm), bumpAt_getD_ne _ _ hji]

theorem bumpFoldRange_succ (n : ℕ) (cond : ℕ → Bool) (dfn : ℕ → ℚ) (sel : List ℚ) :
    bumpFoldRange (n + 1) cond dfn sel =
      (if cond n then bumpAt (bumpFoldRange n cond dfn sel) n (dfn n)
       else bumpFoldRange n cond dfn sel) := by
  unfold bumpFoldRange
  rw [List.range_succ, List.foldl_append]
  rfl

theorem bumpFoldRange_length (n : ℕ) (cond : ℕ → Bool) (dfn : ℕ → ℚ)
    (sel : List ℚ) : (bumpFoldRange n cond dfn sel).length = sel.length := by
  refine foldl_inv (fun s : List ℚ => s.length = sel.length) _ rfl fun s b _ hs => ?_
  by_cases hc : cond b = true <;> simp [hc, bumpAt_length, hs]

theorem bumpFoldRange_getD_ge (n : ℕ) (cond : ℕ → Bool) (dfn : ℕ → ℚ)
    (sel : List ℚ) (i : ℕ) (h : n ≤ i) :
    (bumpFoldRange n cond dfn sel).getD i 0 = sel.getD i 0 := by
  induction n with
  | zero => rfl
  | succ m ih =>
    have hmi : m ≠ i := by omega
    rw [bumpFoldRange_succ]
    by_cases hc : cond m = true
    · simp only [hc, if_true, bumpAt]
      rw [getD_set_ne _ _ _ hmi, ih (by omega)]
    · simp only [hc, if_false]
      exact ih (by omega)

theorem bumpFoldRange_getD (n : ℕ) (cond : ℕ → Bool) (dfn : ℕ → ℚ)
    (sel : List ℚ) (i : ℕ) (hlen : i < sel.length) (hin : i < n) :
    (bumpFoldRange n cond dfn sel).getD i 0 =
      if cond i then bump (dfn i) (sel.getD i 0) else sel.getD i 0 := by
  induction n with
  | zero => omega
  | succ m ih =>
    rw [bumpFoldRange_succ]
    by_cases him : i = m
    · subst him
      have hpre : (bumpFoldRange i cond dfn sel).getD i 0 = sel.getD i 0 :=
        bumpFoldRange_getD_ge _ _ _ _ _ (le_refl i)
      by_cases hc : cond i = true
      · simp only [hc, if_true, bumpAt, hpre]
        rw [getD_set_self _ _ _ _ (by rw [bumpFoldRange_length]; exact hlen)]
      · simp only [hc, if_false]
        exact hpre
    · have him' : i < m := by omega
      by_cases hc : cond m = true
      · simp only [hc, if_true, bumpAt]
        rw [getD_set_ne _ _ _ (fun hh => him hh.symm), ih him']
      · simp only [hc, if_false]
        exact ih him'

theorem Mat4_det_id : Mat4.id.det = 1 := by
  norm_num [Mat4.det, Mat4.det3, Mat4.id]

theorem Mat4_invert_id : Mat4.invert Mat4.id = Mat4.id := by
  unfold Mat4.invert
  simp only [Mat4_det_id]
  norm_num [Mat4.det3, Mat4.id]

theorem Mat4_mulP_id (v : Vec3) : Mat4.id.mulP v = v := by
  cases v
  simp [Mat4.mulP, Mat4.id]

theorem Mat4_id_mul_id : (Mat4.id.mul Mat4.id).mul Mat4.id = Mat4.id := by
  norm_num [Mat4.mul, Mat4.id]

theorem Mat4_mulP_comp (A B : Mat4) (hB : B.affineRow) (x : Vec3) :
    A.mulP (B.mulP x) = (A.mul B).mulP x := by
  obtain ⟨h0, h1, h2, h3⟩ := hB
  cases A
  cases B
  cases x
  simp only [Mat4.affineRow] at h0 h1 h2 h3
  subst h0
  subst h1
  subst h2
  subst h3
  simp only [Mat4.mulP, Mat4.mul, Vec3.mk.injEq]
  refine ⟨by ring, by ring, by ring⟩

/-! ### Claim C2 -/

/-- Claim C2 is false as stated: with the 3-sample curve `[2, 5, 9]` and radius 1,
a vertex exactly at the brush radius receives bucket index 0 (sample 2), not the
claimed index N-1 = 2 (sample 9), and a vertex at the brush center receives
index 2 (sample 9), not the claimed index 0 — the source's
`clamp01(1 - distance/bradius)` maps the edge to 0 and the center to 1. -/
theorem C2_counterexample :
    GetBrushSampleIndex 1 1 3 = 0 ∧ GetBrushSample 1 1 [2, 5, 9] = 2 ∧
    GetBrushSampleIndex 0 1 3 = 2 ∧ GetBrushSample 0 1 [2, 5, 9] = 9 ∧
    ¬ (GetBrushSampleIndex 1 1 3 = 3 - 1 ∧ GetBrushSampleIndex 0 1 3 = 0) := by
  have h1 : GetBrushSampleIndex 1 1 3 = 0 := by
    norm_num [GetBrushSampleIndex, clamp01]
  have h0 : GetBrushSampleIndex 0 1 3 = 2 := by
    norm_num [GetBrushSampleIndex, clamp01]
    rfl
  refine ⟨h1, ?_, h0, ?_, ?_⟩
  · simp [GetBrushSample, h1, List.getD]
  · simp [GetBrushSample, h0, List.getD]
  · intro hcl
    rw [h1] at hcl
    omega

/-- Claim C2 (amended): the index convention is the reverse of the claimed one —
with the nonnegative-distance falloff argument `clamp01(1 - d/r)`, a vertex at
distance exactly the brush radius receives bucket index 0 and a vertex at the
brush center receives bucket index N-1; the lookup is a truncated (floor)
bucket, which never exceeds N-1. -/
theorem C2_brush_sample_amended (r : ℚ) (n : ℕ) (hr : 0 < r) (hn : 2 ≤ n) :
    GetBrushSampleIndex r r n = 0 ∧ GetBrushSampleIndex 0 r n = n - 1 ∧
    ∀ d : ℚ, GetBrushSampleIndex d r n ≤ n - 1 := by
  have hcast : ((n : ℚ) - 1) = ((n - 1 : ℕ) : ℚ) := by
    rw [Nat.cast_sub (by omega : 1 ≤ n)]
    norm_num
  refine ⟨?_, ?_, ?_⟩
  · unfold GetBrushSampleIndex
    rw [div_self (ne_of_gt hr)]
    norm_num [clamp01]
  · unfold GetBrushSampleIndex
    rw [show (0 : ℚ) / r = 0 from zero_div r]
    rw [show clamp01 (1 - 0) = 1 by norm_num [clamp01], one_mul]
    rw [hcast, Int.floor_natCast]
    exact Int.toNat_natCast _
  · intro d
    have hn1 : (0 : ℚ) ≤ (n : ℚ) - 1 := by
      have h2 : (2 : ℚ) ≤ (n : ℚ) := by exact_mod_cast hn
      linarith
    have h1 : clamp01 (1 - d / r) * ((n : ℚ) - 1) ≤ (n : ℚ) - 1 := by
      have hle := clamp01_le_one (1 - d / r)
      have hge := clamp01_nonneg (1 - d / r)
      nlinarith
    unfold GetBrushSampleIndex
    have h3 : ⌊clamp01 (1 - d / r) * ((n : ℚ) - 1)⌋ ≤ ((n - 1 : ℕ) : ℤ) := by
      rw [hcast] at h1
      calc ⌊clamp01 (1 - d / r) * ((n : ℚ) - 1)⌋
          ≤ ⌊((n - 1 : ℕ) : ℚ)⌋ := Int.floor_le_floor (by rw [hcast]; exact h1)
        _ = ((n - 1 : ℕ) : ℤ) := Int.floor_natCast _
    calc (⌊clamp01 (1 - d / r) * ((n : ℚ) - 1)⌋).toNat
        ≤ ((n - 1 : ℕ) : ℤ).toNat := Int.toNat_le_toNat h3
      _ = n - 1 := Int.toNat_natCast _

/-- Witness for C2's amended theorem at radius 1 and a 2-sample curve. -/
theorem C2_brush_sample_witness :
    (0 : ℚ) < 1 ∧ 2 ≤ 2 ∧ GetBrushSampleIndex 1 1 2 = 0 ∧
    GetBrushSampleIndex 0 1 2 = 2 - 1 ∧ GetBrushSampleIndex (1 / 2) 1 2 ≤ 2 - 1 :=
  ⟨by norm_num, by norm_num,
   (C2_brush_sample_amended 1 2 (by norm_num) (by norm_num)).1,
   (C2_brush_sample_amended 1 2 (by norm_num) (by norm_num)).2.1,
   (C2_brush_sample_amended 1 2 (by norm_num) (by norm_num)).2.2 (1 / 2)⟩

theorem getD_replicate_zero (n i : ℕ) : (List.replicate n (0 : ℚ)).getD i 0 = 0 := by
  by_cases h : i < n
  · simp [List.getD, List.getElem?_replicate, h]
  · simp [List.getD, List.getElem?_eq_none
      (by simpa using Nat.le_of_not_lt h : (List.replicate n (0 : ℚ)).length ≤ i)]

theorem bumpFoldRange_getD_full (n : ℕ) (cond : ℕ → Bool) (dfn : ℕ → ℚ)
    (sel : List ℚ) (i : ℕ) (hlen : i < sel.length) :
    (bumpFoldRange n cond dfn sel).getD i 0 =
      if i < n ∧ cond i = true then bump (dfn i) (sel.getD i 0) else sel.getD i 0 := by
  by_cases hin : i < n
  · rw [bumpFoldRange_getD _ _ _ _ _ hlen hin]
    by_cases hc : cond i = true <;> simp [hc, hin]
  · rw [bumpFoldRange_getD_ge _ _ _ _ _ (le_of_not_lt hin)]
    simp [hin]

/-! ### Claim C1 -/

/-- Claim C1 (amended).  For each of the eight selection-mutating entry points:
every selection weight still lies in [0,1] after the call whenever it did
before, and every individual write combines the contribution with the weight
current at the time of the write as `clamp(current + delta, 0, 1)` — for
`npSelectEdge` / `npSelectHole` / `npSelectConnected` the `clear` flag first
zeroes the buffer, so the combination starts from 0 rather than from the
pre-call weight (the caveat the spec itself states and the claim dropped), and
a vertex listed k times is bumped k times. -/
theorem C1_selection_clamp_amended :
    -- npSelectSingle
    (∀ (model : MeshData) (mvp : Mat4) (rmin rmax : Vec2) (campos : Vec3)
        (strength : ℚ) (ff : Bool) (ffHit : ℕ → Bool) (len2 : Vec2 → ℚ)
        (nrm : Vec3 → Vec3), sel01 model.selection →
      sel01 (npSelectSingle model mvp rmin rmax campos strength ff ffHit len2 nrm).2 ∧
      ∀ i, i < model.selection.length →
        (npSelectSingle model mvp rmin rmax campos strength ff ffHit len2 nrm).2.getD i 0
            = model.selection.getD i 0 ∨
        (npSelectSingle model mvp rmin rmax campos strength ff ffHit len2 nrm).2.getD i 0
            = clamp01 (model.selection.getD i 0 + strength)) ∧
    -- npSelectTriangle
    (∀ (model : MeshData) (rayc : Option (ℕ × ℚ)) (strength : ℚ),
      sel01 model.selection →
      sel01 (npSelectTriangle model rayc strength).2 ∧
      ∀ i, i < model.selection.length → ∃ k : ℕ,
        (npSelectTriangle model rayc strength).2.getD i 0
          = (bump strength)^[k] (model.selection.getD i 0)) ∧
    -- npSelectEdge
    (∀ (model : MeshData) (strength : ℚ) (clear : Bool) (matched : List ℕ),
      sel01 model.selection →
      sel01 (npSelectEdge model strength clear matched).2 ∧
      (model.selection.length = model.num_vertices →
        ∀ i, i < model.num_vertices →
        (npSelectEdge model strength clear matched).2.getD i 0
          = (bump strength)^[matched.count i]
              (if clear then 0 else model.selection.getD i 0))) ∧
    -- npSelectHole
    (∀ (model : MeshData) (strength : ℚ) (clear : Bool) (matched : List ℕ),
      sel01 model.selection →
      sel01 (npSelectHole model strength clear matched).2 ∧
      (model.selection.length = model.num_vertices →
        ∀ i, i < model.num_vertices →
        (npSelectHole model strength clear matched).2.getD i 0
          = (bump strength)^[matched.count i]
              (if clear then 0 else model.selection.getD i 0))) ∧
    -- npSelectConnected
    (∀ (model : MeshData) (strength : ℚ) (clear : Bool) (matched : List ℕ),
      sel01 model.selection →
      sel01 (npSelectConnected model strength clear matched).2 ∧
      (model.selection.length = model.num_vertices →
        ∀ i, i < model.num_vertices →
        (npSelectConnected model strength clear matched).2.getD i 0
          = (bump strength)^[matched.count i]
              (if clear then 0 else model.selection.getD i 0))) ∧
    -- npSelectRect
    (∀ (model : MeshData) (mvp : Mat4) (rmin rmax : Vec2) (strength : ℚ)
        (ff : Bool) (ffHit : ℕ → Bool), sel01 model.selection →
      sel01 (npSelectRect model mvp rmin rmax strength ff ffHit).2 ∧
      ∀ i, i < model.selection.length →
        (npSelectRect model mvp rmin rmax strength ff ffHit).2.getD i 0
          = if i < model.num_vertices ∧ rectCond model mvp rmin rmax ff ffHit i = true
            then clamp01 (model.selection.getD i 0 + strength)
            else model.selection.getD i 0) ∧
    -- npSelectLasso
    (∀ (model : MeshData) (mvp : Mat4) (lasso : List Vec2) (strength : ℚ)
        (ff : Bool) (ffHit : ℕ → Bool) (polyInside : Vec2 → Bool),
      sel01 model.selection →
      sel01 (npSelectLasso model mvp lasso strength ff ffHit polyInside).2 ∧
      ∀ i, i < model.selection.length →
        (npSelectLasso model mvp lasso strength ff ffHit polyInside).2.getD i 0
          = if 3 ≤ lasso.length ∧ i < model.num_vertices
                ∧ lassoCond model mvp polyInside ff ffHit i = true
            then clamp01 (model.selection.getD i 0 + strength)
            else model.selection.getD i 0) ∧
    -- npSelectBrush
    (∀ (model : MeshData) (pos : Vec3) (radius strength : ℚ) (bsamples : List ℚ)
        (sqrtQ : ℚ → ℚ), sel01 model.selection →
      sel01 (npSelectBrush model pos radius strength bsamples sqrtQ).2 ∧
      ∀ i, i < model.selection.length →
        (npSelectBrush model pos radius strength bsamples sqrtQ).2.getD i 0
          = if i < model.num_vertices ∧ insideCond model pos radius i = true
            then clamp01 (model.selection.getD i 0 +
                GetBrushSample
                  (sqrtQ (distSq (model.transform.mulP
                    (model.vertices.getD i Vec3.zero)) pos))
                  radius bsamples * strength)
            else model.selection.getD i 0) := by
  refine ⟨?_, ?_, ?_, ?_, ?_, ?_, ?_, ?_⟩
  · -- npSelectSingle
    intro model mvp rmin rmax campos strength ff ffHit len2 nrm hsel
    unfold npSelectSingle
    cases hpick : npSelectNearestImpl model mvp rmin rmax campos ff ffHit len2 nrm with
    | none => exact ⟨hsel, fun i _ => Or.inl rfl⟩
    | some pick =>
      refine ⟨sel01_bumpAt hsel pick strength, fun i hi => ?_⟩
      by_cases hpi : pick = i
      · subst hpi
        exact Or.inr (bumpAt_getD_self _ _ _ hi)
      · exact Or.inl (bumpAt_getD_ne _ _ hpi)
  · -- npSelectTriangle
    intro model rayc strength hsel
    unfold npSelectTriangle
    cases rayc with
    | none => exact ⟨hsel, fun i hi => ⟨0, rfl⟩⟩
    | some tc =>
      refine ⟨sel01_applyBumps hsel _ _, fun i hi => ?_⟩
      exact ⟨_, applyBumps_getD _ _ _ _ hi⟩
  · -- npSelectEdge
    intro model strength clear matched hsel
    unfold npSelectEdge
    constructor
    · cases clear with
      | true => exact sel01_applyBumps (sel01_replicate _) _ _
      | false => exact sel01_applyBumps hsel _ _
    · intro hlen i hi
      have hbase : (if clear = true then List.replicate model.num_vertices (0 : ℚ)
          else model.selection).length = model.num_vertices := by
        cases clear <;> simp [hlen]
      rw [applyBumps_getD _ _ _ _ (by rw [hbase]; exact hi)]
      congr 1
      cases clear
      · simp
      · simp [getD_replicate_zero]
  · -- npSelectHole
    intro model strength clear matched hsel
    unfold npSelectHole
    constructor
    · cases clear with
      | true => exact sel01_applyBumps (sel01_replicate _) _ _
      | false => exact sel01_applyBumps hsel _ _
    · intro hlen i hi
      have hbase : (if clear = true then List.replicate model.num_vertices (0 : ℚ)
          else model.selection).length = model.num_vertices := by
        cases clear <;> simp [hlen]
      rw [applyBumps_getD _ _ _ _ (by rw [hbase]; exact hi)]
      congr 1
      cases clear
      · simp
      · simp [getD_replicate_zero]
  · -- npSelectConnected
    intro model strength clear matched hsel
    unfold npSelectConnected
    constructor
    · cases clear with
      | true => exact sel01_applyBumps (sel01_replicate _) _ _
      | false => exact sel01_applyBumps hsel _ _
    · intro hlen i hi
      have hbase : (if clear = true then List.replicate model.num_vertices (0 : ℚ)
          else model.selection).length = model.num_vertices := by
        cases clear <;> simp [hlen]
      rw [applyBumps_getD _ _ _ _ (by rw [hbase]; exact hi)]
      congr 1
      cases clear
      · simp
      · simp [getD_replicate_zero]
  · -- npSelectRect
    intro model mvp rmin rmax strength ff ffHit hsel
    unfold npSelectRect
    refine ⟨sel01_bumpFoldRange hsel _ _ _, fun i hi => ?_⟩
    exact bumpFoldRange_getD_full _ _ _ _ _ hi
  · -- npSelectLasso
    intro model mvp lasso strength ff ffHit polyInside hsel
    unfold npSelectLasso
    by_cases hL : lasso.length < 3
    · simp only [hL, if_true]
      refine ⟨hsel, fun i hi => ?_⟩
      have : ¬ (3 ≤ lasso.length ∧ i < model.num_vertices
          ∧ lassoCond model mvp polyInside ff ffHit i = true) := by
        intro hc
        omega
      simp [this]
    · simp only [hL, if_false]
      refine ⟨sel01_bumpFoldRange hsel _ _ _, fun i hi => ?_⟩
      rw [bumpFoldRange_getD_full _ _ _ _ _ hi]
      have h3 : 3 ≤ lasso.length := by omega
      by_cases hc : i < model.num_vertices ∧ lassoCond model mvp polyInside ff ffHit i = true
      · simp [hc, h3, bump]
      · have : ¬ (3 ≤ lasso.length ∧ i < model.num_vertices
            ∧ lassoCond model mvp polyInside ff ffHit i = true) := by
          intro hx
          exact hc ⟨hx.2.1, hx.2.2⟩
        simp [hc, this]
  · -- npSelectBrush
    intro model pos radius strength bsamples sqrtQ hsel
    unfold npSelectBrush
    refine ⟨sel01_bumpFoldRange hsel _ _ _, fun i hi => ?_⟩
    exact bumpFoldRange_getD_full _ _ _ _ _ hi

/-- Claim C1 is false as stated: `npSelectEdge` with the `clear` flag (on a
one-triangle mesh every vertex is a boundary vertex, so vertex 0 is fed to the
callback — `matched := [0]` instantiates the abstracted topology helper) turns
a pre-call weight of 1 with strength 1/2 into 1/2, which is neither the old
weight nor `clamp(old + delta, 0, 1) = 1`: the combination starts from the
cleared weight 0, not from the existing weight. -/
theorem C1_counterexample :
    (npSelectEdge ⟨[0, 1, 2], [⟨0, 0, 0⟩, ⟨1, 0, 0⟩, ⟨0, 1, 0⟩], [], [], [],
        [1, 0, 0], 3, 1, Mat4.id⟩ (1 / 2) true [0]).2.getD 0 0 = 1 / 2 ∧
    (1 : ℚ) / 2 ≠ (1 : ℚ) ∧
    clamp01 ((1 : ℚ) + 1 / 2) = 1 := by
  refine ⟨?_, by norm_num, by norm_num [clamp01]⟩
  norm_num [npSelectEdge, applyBumps, bumpAt, bump, clamp01, List.getD]

/-- Witness for C1's amended theorem: the [0,1] invariant of all eight entry
points at a concrete one-vertex selection. -/
theorem C1_selection_witness :
    sel01 [(1 : ℚ) / 2] ∧
    sel01 (npSelectSingle ⟨[], [⟨0, 0, 0⟩], [⟨0, 0, 1⟩], [], [], [1 / 2], 1, 0, Mat4.id⟩
      Mat4.id ⟨-1, -1⟩ ⟨1, 1⟩ ⟨0, 0, 0⟩ (3 / 4) false (fun _ => true)
      (fun v => |v.x| + |v.y|) (fun v => v)).2 ∧
    sel01 (npSelectTriangle ⟨[0, 0, 0], [⟨0, 0, 0⟩], [], [], [], [1 / 2], 1, 1, Mat4.id⟩
      (some (0, 1)) (3 / 4)).2 ∧
    sel01 (npSelectEdge ⟨[], [⟨0, 0, 0⟩], [], [], [], [1 / 2], 1, 0, Mat4.id⟩
      (3 / 4) true [0]).2 ∧
    sel01 (npSelectHole ⟨[], [⟨0, 0, 0⟩], [], [], [], [1 / 2], 1, 0, Mat4.id⟩
      (3 / 4) false [0]).2 ∧
    sel01 (npSelectConnected ⟨[], [⟨0, 0, 0⟩], [], [], [], [1 / 2], 1, 0, Mat4.id⟩
      (3 / 4) false [0]).2 ∧
    sel01 (npSelectRect ⟨[], [⟨0, 0, 0⟩], [], [], [], [1 / 2], 1, 0, Mat4.id⟩
      Mat4.id ⟨-1, -1⟩ ⟨1, 1⟩ (3 / 4) false (fun _ => true)).2 ∧
    sel01 (npSelectLasso ⟨[], [⟨0, 0, 0⟩], [], [], [], [1 / 2], 1, 0, Mat4.id⟩
      Mat4.id [⟨0, 0⟩, ⟨1, 0⟩, ⟨0, 1⟩] (3 / 4) false (fun _ => true) (fun _ => true)).2 ∧
    sel01 (npSelectBrush ⟨[], [⟨0, 0, 0⟩], [], [], [], [1 / 2], 1, 0, Mat4.id⟩
      ⟨0, 0, 0⟩ 1 (3 / 4) [1, 1] (fun q => q)).2 := by
  have hsel : sel01 [(1 : ℚ) / 2] := by
    intro y hy
    simp only [List.mem_singleton] at hy
    subst hy
    norm_num
  exact ⟨hsel,
    (C1_selection_clamp_amended.1 _ _ _ _ _ _ _ _ _ _ hsel).1,
    (C1_selection_clamp_amended.2.1 _ _ _ hsel).1,
    (C1_selection_clamp_amended.2.2.1 _ _ _ _ hsel).1,
    (C1_selection_clamp_amended.2.2.2.1 _ _ _ _ hsel).1,
    (C1_selection_clamp_amended.2.2.2.2.1 _ _ _ _ hsel).1,
    (C1_selection_clamp_amended.2.2.2.2.2.1 _ _ _ _ _ _ _ hsel).1,
    (C1_selection_clamp_amended.2.2.2.2.2.2.1 _ _ _ _ _ _ _ hsel).1,
    (C1_selection_clamp_amended.2.2.2.2.2.2.2 _ _ _ _ _ _ hsel).1⟩

/-! ### Claim C3 -/

theorem skinPoint_all_id (poses : List Mat4) (w : Weights4) (p : Vec3)
    (k0 : poses.getD w.i0 Mat4.id = Mat4.id) (k1 : poses.getD w.i1 Mat4.id = Mat4.id)
    (k2 : poses.getD w.i2 Mat4.id = Mat4.id) (k3 : poses.getD w.i3 Mat4.id = Mat4.id)
    (hsum : w.w0 + w.w1 + w.w2 + w.w3 = 1) : skinPoint poses w p = p := by
  unfold skinPoint
  rw [k0, k1, k2, k3, Mat4_mulP_id]
  cases p with
  | mk x y z =>
    simp only [Vec3.scale, Vec3.add, Vec3.mk.injEq]
    refine ⟨by linear_combination x * hsum, by linear_combination y * hsum,
      by linear_combination z * hsum⟩

theorem skinPoint_single (poses : List Mat4) (w : Weights4) (p : Vec3)
    (h0 : w.w0 = 1) (h1 : w.w1 = 0) (h2 : w.w2 = 0) (h3 : w.w3 = 0) :
    skinPoint poses w p = (poses.getD w.i0 Mat4.id).mulP p := by
  unfold skinPoint
  rw [h0, h1, h2, h3]
  generalize (poses.getD w.i0 Mat4.id).mulP p = a
  generalize (poses.getD w.i1 Mat4.id).mulP p = b
  generalize (poses.getD w.i2 Mat4.id).mulP p = c
  generalize (poses.getD w.i3 Mat4.id).mulP p = d
  cases a
  cases b
  cases c
  cases d
  simp [Vec3.scale, Vec3.add]

theorem getD_eq_getElem_of_lt {α : Type} (l : List α) (i : ℕ) (d : α)
    (h : i < l.length) : l.getD i d = l[i] := by
  simp [List.getD, List.getElem?_eq_getElem h]

/-- Claim C3 (amended).  First part: with identity bindpose, bone and root
transforms, `npApplySkinning` leaves the positions unchanged **provided each
vertex's four influence weights sum to 1** (the source applies the stored
weights with no renormalization, so a non-unit weight sum scales the output).
Second part: `npApplySkinning` followed by `npApplyReverseSkinning` restores
every position exactly **when each vertex carries a single influence of
weight 1** whose pose matrix is affine and invertible (for blended influences
the sum of inverses is not the inverse of the sum, and the round trip fails —
see the counterexample). -/
theorem C3_skinning_amended :
    (∀ (skin : SkinData) (ipoints : List Vec3),
      skin.root = Mat4.id →
      (∀ bi, bi < skin.num_bones → skin.bindposes.getD bi Mat4.id = Mat4.id) →
      (∀ bi, bi < skin.num_bones → skin.bones.getD bi Mat4.id = Mat4.id) →
      (∀ vi, vi < skin.num_vertices →
        (skin.weights.getD vi default).i0 < skin.num_bones ∧
        (skin.weights.getD vi default).i1 < skin.num_bones ∧
        (skin.weights.getD vi default).i2 < skin.num_bones ∧
        (skin.weights.getD vi default).i3 < skin.num_bones ∧
        (skin.weights.getD vi default).w0 + (skin.weights.getD vi default).w1 +
          (skin.weights.getD vi default).w2 + (skin.weights.getD vi default).w3 = 1) →
      ipoints.length = skin.num_vertices →
      npApplySkinningPoints skin ipoints = ipoints) ∧
    (∀ (skin : SkinData) (ipoints : List Vec3),
      (∀ vi, vi < skin.num_vertices →
        (skin.weights.getD vi default).w0 = 1 ∧
        (skin.weights.getD vi default).w1 = 0 ∧
        (skin.weights.getD vi default).w2 = 0 ∧
        (skin.weights.getD vi default).w3 = 0 ∧
        (skin.weights.getD vi default).i0 < skin.num_bones) →
      (∀ bi, bi < skin.num_bones →
        (((skin.bindposes.getD bi Mat4.id).mul (skin.bones.getD bi Mat4.id)).mul
          (Mat4.invert skin.root)).affineRow ∧
        (Mat4.invert (((skin.bindposes.getD bi Mat4.id).mul
            (skin.bones.getD bi Mat4.id)).mul (Mat4.invert skin.root))).mul
          (((skin.bindposes.getD bi Mat4.id).mul (skin.bones.getD bi Mat4.id)).mul
            (Mat4.invert skin.root)) = Mat4.id) →
      ipoints.length = skin.num_vertices →
      npApplyReverseSkinningPoints skin (npApplySkinningPoints skin ipoints) = ipoints) := by
  constructor
  · intro skin ipoints hroot hbp hb hw hlen
    unfold npApplySkinningPoints SkinningImplPoints
    apply List.ext_getElem (by simpa using hlen.symm)
    intro i h1 h2
    simp only [List.getElem_map, List.getElem_range]
    have hi : i < skin.num_vertices := by simpa using h1
    obtain ⟨hi0, hi1, hi2, hi3, hsum⟩ := hw i hi
    have hpose : ∀ k, k < skin.num_bones →
        ((List.range skin.num_bones).map fun bi =>
          ((skin.bindposes.getD bi Mat4.id).mul (skin.bones.getD bi Mat4.id)).mul
            (Mat4.invert skin.root)).getD k Mat4.id = Mat4.id := by
      intro k hk
      rw [getD_map_range _ _ hk, hbp k hk, hb k hk, hroot, Mat4_invert_id]
      exact Mat4_id_mul_id
    rw [skinPoint_all_id _ _ _ (hpose _ hi0) (hpose _ hi1) (hpose _ hi2)
      (hpose _ hi3) hsum]
    exact getD_eq_getElem_of_lt _ _ _ (by omega)
  · intro skin ipoints hw hps hlen
    unfold npApplyReverseSkinningPoints npApplySkinningPoints SkinningImplPoints
    apply List.ext_getElem (by simpa using hlen.symm)
    intro i h1 h2
    simp only [List.getElem_map, List.getElem_range]
    have hi : i < skin.num_vertices := by simpa using h1
    obtain ⟨hw0, hw1, hw2, hw3, hI0⟩ := hw i hi
    obtain ⟨haff, hinv⟩ := hps _ hI0
    rw [skinPoint_single _ _ _ hw0 hw1 hw2 hw3]
    rw [getD_map_range _ _ hI0]
    have hmid : ((List.range skin.num_vertices).map fun vi =>
        skinPoint ((List.range skin.num_bones).map fun bi =>
          ((skin.bindposes.getD bi Mat4.id).mul (skin.bones.getD bi Mat4.id)).mul
            (Mat4.invert skin.root)) (skin.weights.getD vi default)
          (ipoints.getD vi Vec3.zero)).getD i Vec3.zero =
        (((skin.bindposes.getD (skin.weights.getD i default).i0 Mat4.id).mul
          (skin.bones.getD (skin.weights.getD i default).i0 Mat4.id)).mul
            (Mat4.invert skin.root)).mulP (ipoints.getD i Vec3.zero) := by
      rw [getD_map_range _ _ hi, skinPoint_single _ _ _ hw0 hw1 hw2 hw3,
        getD_map_range _ _ hI0]
    rw [hmid, Mat4_mulP_comp _ _ haff, hinv, Mat4_mulP_id]
    exact getD_eq_getElem_of_lt _ _ _ (by omega)

/-- Claim C3 is false as stated: a one-bone skin whose bindpose, bone and root
transforms are all the identity but whose single vertex has influence weight
1/2 (the spec allows weights that do not sum to 1) maps position (1,0,0) to
(1/2,0,0) under `npApplySkinning`, and the `npApplySkinning` /
`npApplyReverseSkinning` round trip yields (1/4,0,0) — neither equals the
input despite every pose matrix being the (invertible) identity. -/
theorem C3_counterexample :
    npApplySkinningPoints
        ⟨[⟨0, 0, 0, 0, 1 / 2, 0, 0, 0⟩], [Mat4.id], [Mat4.id], 1, 1, Mat4.id⟩
        [⟨1, 0, 0⟩] ≠ [⟨1, 0, 0⟩] ∧
    npApplyReverseSkinningPoints
        ⟨[⟨0, 0, 0, 0, 1 / 2, 0, 0, 0⟩], [Mat4.id], [Mat4.id], 1, 1, Mat4.id⟩
        (npApplySkinningPoints
          ⟨[⟨0, 0, 0, 0, 1 / 2, 0, 0, 0⟩], [Mat4.id], [Mat4.id], 1, 1, Mat4.id⟩
          [⟨1, 0, 0⟩]) ≠ [⟨1, 0, 0⟩] := by
  have hfwd : npApplySkinningPoints
      ⟨[⟨0, 0, 0, 0, 1 / 2, 0, 0, 0⟩], [Mat4.id], [Mat4.id], 1, 1, Mat4.id⟩
      [⟨1, 0, 0⟩] = [⟨1 / 2, 0, 0⟩] := by
    simp [npApplySkinningPoints, SkinningImplPoints, skinPoint, Mat4_invert_id,
      Mat4_id_mul_id, List.range_succ, List.getD, Mat4_mulP_id, Vec3.scale, Vec3.add]
  have hrev : npApplyReverseSkinningPoints
      ⟨[⟨0, 0, 0, 0, 1 / 2, 0, 0, 0⟩], [Mat4.id], [Mat4.id], 1, 1, Mat4.id⟩
      [⟨1 / 2, 0, 0⟩] = [⟨1 / 4, 0, 0⟩] := by
    simp [npApplyReverseSkinningPoints, SkinningImplPoints, skinPoint, Mat4_invert_id,
      Mat4_id_mul_id, List.range_succ, List.getD, Mat4_mulP_id, Vec3.scale, Vec3.add]
    norm_num
  refine ⟨by rw [hfwd]; simp, by rw [hfwd, hrev]; simp⟩

/-- Witness for C3's amended theorem: part one at a one-bone identity skin with
unit weight, part two at a one-bone translation pose. -/
theorem C3_skinning_witness :
    npApplySkinningPoints
        ⟨[⟨0, 0, 0, 0, 1, 0, 0, 0⟩], [Mat4.id], [Mat4.id], 1, 1, Mat4.id⟩
        [⟨2, 3, 4⟩] = [⟨2, 3, 4⟩] ∧
    npApplyReverseSkinningPoints
        ⟨[⟨0, 0, 0, 0, 1, 0, 0, 0⟩], [Mat4.translate ⟨1, 2, 3⟩], [Mat4.id], 1, 1, Mat4.id⟩
        (npApplySkinningPoints
          ⟨[⟨0, 0, 0, 0, 1, 0, 0, 0⟩], [Mat4.translate ⟨1, 2, 3⟩], [Mat4.id], 1, 1, Mat4.id⟩
          [⟨2, 3, 4⟩]) = [⟨2, 3, 4⟩] := by
  constructor
  · refine C3_skinning_amended.1 _ _ rfl ?_ ?_ ?_ rfl
    · intro bi hbi
      interval_cases bi
      rfl
    · intro bi hbi
      interval_cases bi
      rfl
    · intro vi hvi
      interval_cases vi
      refine ⟨by norm_num, by norm_num, by norm_num, by norm_num, by norm_num [List.getD]⟩
  · refine C3_skinning_amended.2 _ _ ?_ ?_ rfl
    · intro vi hvi
      interval_cases vi
      refine ⟨by norm_num [List.getD], by norm_num [List.getD], by norm_num [List.getD],
        by norm_num [List.getD], by norm_num⟩
    · intro bi hbi
      interval_cases bi
      constructor
      · norm_num [List.getD, Mat4.mul, Mat4.id, Mat4.translate, Mat4.affineRow,
          Mat4.invert, Mat4.det, Mat4.det3]
      · norm_num [List.getD, Mat4.mul, Mat4.id, Mat4.translate, Mat4_invert_id,
          Mat4.invert, Mat4.det, Mat4.det3]

/-! ### Claim C4 -/

theorem quad_bound (x1 x2 x3 y1 y2 y3 e : ℚ) (he : 0 < e)
    (h1 : x1 * x1 + x2 * x2 + x3 * x3 < e ^ 2)
    (h2 : y1 * y1 + y2 * y2 + y3 * y3 < e ^ 2) :
    (x1 - y1) * (x1 - y1) + (x2 - y2) * (x2 - y2) + (x3 - y3) * (x3 - y3)
      < 4 * e ^ 2 := by
  have hX : 0 ≤ x1 * x1 + x2 * x2 + x3 * x3 := by
    nlinarith [mul_self_nonneg x1, mul_self_nonneg x2, mul_self_nonneg x3]
  have hY : 0 ≤ y1 * y1 + y2 * y2 + y3 * y3 := by
    nlinarith [mul_self_nonneg y1, mul_self_nonneg y2, mul_self_nonneg y3]
  have hlag : (x1 * y1 + x2 * y2 + x3 * y3) ^ 2 ≤
      (x1 * x1 + x2 * x2 + x3 * x3) * (y1 * y1 + y2 * y2 + y3 * y3) := by
    nlinarith [sq_nonneg (x1 * y2 - x2 * y1), sq_nonneg (x1 * y3 - x3 * y1),
      sq_nonneg (x2 * y3 - x3 * y2)]
  have hD : -(e ^ 2) < x1 * y1 + x2 * y2 + x3 * y3 := by
    by_contra hcon
    push_neg at hcon
    have h4 : e ^ 2 ≤ -(x1 * y1 + x2 * y2 + x3 * y3) := by linarith
    have h5 : e ^ 2 * e ^ 2 ≤ (-(x1 * y1 + x2 * y2 + x3 * y3)) *
        (-(x1 * y1 + x2 * y2 + x3 * y3)) :=
      mul_le_mul h4 h4 (by positivity) (by linarith)
    have hXY : (x1 * x1 + x2 * x2 + x3 * x3) * (y1 * y1 + y2 * y2 + y3 * y3)
        < e ^ 2 * e ^ 2 := by nlinarith
    nlinarith
  linarith [h1, h2, hD, sq_nonneg (x1 - y1), sq_nonneg (x2 - y2), sq_nonneg (x3 - y3),
    sq_nonneg (x1 + y1), sq_nonneg (x2 + y2), sq_nonneg (x3 + y3)]

/-- Two points each strictly within `e` of a common point lie strictly within
`2e` of each other (stated on squared distances, so no square roots). -/
theorem distSq_pair_lt (a b s : Vec3) (e : ℚ) (he : 0 < e)
    (h1 : distSq a s < e ^ 2) (h2 : distSq b s < e ^ 2) :
    distSq a b < 4 * e ^ 2 := by
  unfold distSq Vec3.lengthSq Vec3.sub at *
  have h := quad_bound (a.x - s.x) (a.y - s.y) (a.z - s.z)
    (b.x - s.x) (b.y - s.y) (b.z - s.z) e he h1 h2
  have heq : (a.x - b.x) * (a.x - b.x) + (a.y - b.y) * (a.y - b.y) +
      (a.z - b.z) * (a.z - b.z) =
      ((a.x - s.x) - (b.x - s.x)) * ((a.x - s.x) - (b.x - s.x)) +
      ((a.y - s.y) - (b.y - s.y)) * ((a.y - s.y) - (b.y - s.y)) +
      ((a.z - s.z) - (b.z - s.z)) * ((a.z - s.z) - (b.z - s.z)) := by ring
  rw [heq]
  exact h

theorem foldl_set_length (l : List ℕ) (x : Vec3) (ns : List Vec3) :
    (l.foldl (fun acc si => acc.set si x) ns).length = ns.length := by
  induction l generalizing ns with
  | nil => rfl
  | cons j t ih =>
    rw [List.foldl_cons, ih]
    simp

theorem foldl_set_getD_not_mem (l : List ℕ) (x : Vec3) (ns : List Vec3) (i : ℕ)
    (h : i ∉ l) :
    (l.foldl (fun acc si => acc.set si x) ns).getD i Vec3.zero = ns.getD i Vec3.zero := by
  induction l generalizing ns with
  | nil => rfl
  | cons j t ih =>
    have h' : i ≠ j ∧ i ∉ t := by simpa using h
    rw [List.foldl_cons, ih (ns.set j x) h'.2]
    exact getD_set_ne _ _ _ (fun hh => h'.1 hh.symm)

theorem foldl_set_getD_mem (l : List ℕ) (x : Vec3) (ns : List Vec3) (i : ℕ)
    (hmem : i ∈ l) (hlen : i < ns.length) :
    (l.foldl (fun acc si => acc.set si x) ns).getD i Vec3.zero = x := by
  induction l generalizing ns with
  | nil => cases hmem
  | cons j t ih =>
    rw [List.foldl_cons]
    by_cases hit : i ∈ t
    · exact ih (ns.set j x) hit (by simpa using hlen)
    · have hij : i = j := by
        rcases List.mem_cons.mp hmem with h | h
        · exact h
        · exact absurd h hit
      subst hij
      rw [foldl_set_getD_not_mem t x _ i hit]
      exact getD_set_self _ _ _ _ hlen

/-- Invariant of the inner collection loop of `npWeld`: the checked list keeps
its length, only gains `true` entries, and every collected member is a
non-seed vertex below `n` that was unprocessed when the scan began, is marked
processed afterwards, and lies strictly within `npEpsilon` of the seed; if
nothing was collected the checked list is untouched. -/
theorem weldCollect_inv (verts norms : List Vec3) (smoothing : Bool) (c : ℚ)
    (vi n : ℕ) (nAcc0 : Vec3) (checked0 : List Bool)
    (hlen : checked0.length = n) :
    ((List.range n).foldl (weldCollect verts norms smoothing c vi)
        (nAcc0, [], checked0)).2.2.length = n ∧
    (∀ k, checked0.getD k false = true →
      ((List.range n).foldl (weldCollect verts norms smoothing c vi)
        (nAcc0, [], checked0)).2.2.getD k false = true) ∧
    (∀ i ∈ ((List.range n).foldl (weldCollect verts norms smoothing c vi)
        (nAcc0, [], checked0)).2.1,
      i < n ∧ i ≠ vi ∧ checked0.getD i false = false ∧
      ((List.range n).foldl (weldCollect verts norms smoothing c vi)
        (nAcc0, [], checked0)).2.2.getD i false = true ∧
      distSq (verts.getD i Vec3.zero) (verts.getD vi Vec3.zero) < npEpsilon ^ 2) ∧
    (((List.range n).foldl (weldCollect verts norms smoothing c vi)
        (nAcc0, [], checked0)).2.1 = [] →
      ((List.range n).foldl (weldCollect verts norms smoothing c vi)
        (nAcc0, [], checked0)).2.2 = checked0) := by
  refine foldl_inv (fun st : Vec3 × List ℕ × List Bool =>
    st.2.2.length = n ∧
    (∀ k, checked0.getD k false = true → st.2.2.getD k false = true) ∧
    (∀ i ∈ st.2.1, i < n ∧ i ≠ vi ∧ checked0.getD i false = false ∧
      st.2.2.getD i false = true ∧
      distSq (verts.getD i Vec3.zero) (verts.getD vi Vec3.zero) < npEpsilon ^ 2) ∧
    (st.2.1 = [] → st.2.2 = checked0)) _
    ⟨hlen, fun k hk => hk, fun i hi => absurd hi (by simp), fun _ => rfl⟩ ?_
  intro s b hb hP
  obtain ⟨hPl, hPm, hPmem, hPe⟩ := hP
  have hbn : b < n := List.mem_range.mp hb
  simp only [weldCollect]
  by_cases hcond : vi ≠ b ∧ s.2.2.getD b false = false ∧
      distSq (verts.getD b Vec3.zero) (verts.getD vi Vec3.zero) < npEpsilon ^ 2 ∧
      cosGe s.1 (norms.getD b Vec3.zero) c = true
  · rw [if_pos hcond]
    refine ⟨by simp [hPl], ?_, ?_, ?_⟩
    · intro k hk
      by_cases hkb : b = k
      · subst hkb
        exact getD_set_self _ _ _ _ (by rw [hPl]; exact hbn)
      · rw [getD_set_ne _ _ _ hkb]
        exact hPm k hk
    · intro i hi
      rcases List.mem_append.mp hi with hi' | hi'
      · obtain ⟨q1, q2, q3, q4, q5⟩ := hPmem i hi'
        refine ⟨q1, q2, q3, ?_, q5⟩
        by_cases hbi : b = i
        · subst hbi
          exact getD_set_self _ _ _ _ (by rw [hPl]; exact hbn)
        · rw [getD_set_ne _ _ _ hbi]
          exact q4
      · have hib : i = b := by simpa using hi'
        subst hib
        refine ⟨hbn, fun hh => hcond.1 hh.symm, ?_,
          getD_set_self _ _ _ _ (by rw [hPl]; exact hbn), hcond.2.2.1⟩
        by_cases h0 : checked0.getD i false = true
        · exact absurd (hPm i h0) (by rw [hcond.2.1]; simp)
        · simpa using h0
    · intro hcontra
      exact absurd hcontra (by simp)
  · rw [if_neg hcond]
    exact ⟨hPl, hPm, hPmem, hPe⟩

/-- Claim C4 (amended).  For every weld group recorded by the `npWeld` scan:
every member lies strictly within `npEpsilon` of the group's seed (positions
are never modified by the weld); all members exit the call with the same
normal (the group normal assigned when the group formed — members are marked
processed and never rewritten); and consequently any two vertices sharing one
group's normal assignment lie strictly within `2 * npEpsilon` of each other
(squared: `4 * npEpsilon²`).  Membership in a group, not the claim's
"within epsilon of each other", is what the scan guarantees: members are
gathered within `npEpsilon` of the **seed**, so two members can be up to
twice `npEpsilon` apart, and a coincident pair can be split across groups —
see the counterexample. -/
theorem C4_weld_amended (model : MeshData) (smoothing : Bool) (c : ℚ)
    (mask : Bool) (nrm : Vec3 → Vec3)
    (hn : model.normals.length = model.num_vertices) :
    ∀ g ∈ (npWeldAux model smoothing c mask nrm).groups,
      (∀ i ∈ g.2, distSq (model.vertices.getD i Vec3.zero)
          (model.vertices.getD g.1 Vec3.zero) < npEpsilon ^ 2) ∧
      (∀ i ∈ g.2, ∀ j ∈ g.2,
        (npWeldAux model smoothing c mask nrm).normals.getD i Vec3.zero =
          (npWeldAux model smoothing c mask nrm).normals.getD j Vec3.zero) ∧
      (∀ i ∈ g.2, ∀ j ∈ g.2,
        distSq (model.vertices.getD i Vec3.zero)
          (model.vertices.getD j Vec3.zero) < 4 * npEpsilon ^ 2) := by
  have hmain : (npWeldAux model smoothing c mask nrm).checked.length =
        model.num_vertices ∧
      (npWeldAux model smoothing c mask nrm).normals.length = model.num_vertices ∧
      ∀ g ∈ (npWeldAux model smoothing c mask nrm).groups,
        (∀ i ∈ g.2, i < model.num_vertices ∧
          (npWeldAux model smoothing c mask nrm).checked.getD i false = true ∧
          distSq (model.vertices.getD i Vec3.zero)
            (model.vertices.getD g.1 Vec3.zero) < npEpsilon ^ 2) ∧
        (∃ nn, ∀ i ∈ g.2,
          (npWeldAux model smoothing c mask nrm).normals.getD i Vec3.zero = nn) := by
    unfold npWeldAux
    refine foldl_inv (fun st : WeldState =>
      st.checked.length = model.num_vertices ∧
      st.normals.length = model.num_vertices ∧
      ∀ g ∈ st.groups,
        (∀ i ∈ g.2, i < model.num_vertices ∧ st.checked.getD i false = true ∧
          distSq (model.vertices.getD i Vec3.zero)
            (model.vertices.getD g.1 Vec3.zero) < npEpsilon ^ 2) ∧
        (∃ nn, ∀ i ∈ g.2, st.normals.getD i Vec3.zero = nn)) _
      ⟨by simp, hn, fun g hg => absurd hg (by simp)⟩ ?_
    intro st vi hvi hP
    obtain ⟨hPc, hPn, hPg⟩ := hP
    simp only [weldOuter]
    by_cases h1 : st.checked.getD vi false = true
    · rw [if_pos h1]
      exact ⟨hPc, hPn, hPg⟩
    · rw [if_neg h1]
      by_cases h2 : (if mask then model.selection.getD vi 0 else 1) = 0
      · rw [if_pos h2]
        exact ⟨hPc, hPn, hPg⟩
      · rw [if_neg h2]
        set res := (List.range model.num_vertices).foldl
          (weldCollect model.vertices st.normals smoothing c vi)
          (st.normals.getD vi Vec3.zero, [], st.checked) with hres
        obtain ⟨hIl, hIm, hImem, hIe⟩ := weldCollect_inv model.vertices st.normals
          smoothing c vi model.num_vertices (st.normals.getD vi Vec3.zero)
          st.checked hPc
        rw [← hres] at hIl hIm hImem hIe
        by_cases h3 : res.2.1 = []
        · rw [if_pos h3]
          rw [hIe h3]
          exact ⟨hPc, hPn, hPg⟩
        · rw [if_neg h3]
          refine ⟨hIl, ?_, ?_⟩
          · show (res.2.1.foldl (fun ns si => ns.set si (nrm res.1))
              (st.normals.set vi (nrm res.1))).length = model.num_vertices
            rw [foldl_set_length]
            simp [hPn]
          · intro g hg
            rcases List.mem_append.mp hg with hgold | hgnew
            · obtain ⟨hmemo, nno, hnno⟩ := hPg g hgold
              constructor
              · intro i hi
                obtain ⟨q1, q2, q3⟩ := hmemo i hi
                exact ⟨q1, hIm i q2, q3⟩
              · refine ⟨nno, fun i hi => ?_⟩
                obtain ⟨q1, q2, q3⟩ := hmemo i hi
                have hineq : i ∉ res.2.1 := by
                  intro hin
                  have := (hImem i hin).2.2.1
                  rw [q2] at this
                  exact absurd this (by simp)
                have hivi : vi ≠ i := by
                  intro hh
                  rw [← hh] at q2
                  exact h1 q2
                show (res.2.1.foldl (fun ns si => ns.set si (nrm res.1))
                    (st.normals.set vi (nrm res.1))).getD i Vec3.zero = nno
                rw [foldl_set_getD_not_mem _ _ _ _ hineq,
                  getD_set_ne _ _ _ hivi]
                exact hnno i hi
            · have hgv : g = (vi, res.2.1) := by simpa using hgnew
              subst hgv
              constructor
              · intro i hi
                obtain ⟨q1, q2, q3, q4, q5⟩ := hImem i hi
                exact ⟨q1, q4, q5⟩
              · refine ⟨nrm res.1, fun i hi => ?_⟩
                show (res.2.1.foldl (fun ns si => ns.set si (nrm res.1))
                    (st.normals.set vi (nrm res.1))).getD i Vec3.zero = nrm res.1
                refine foldl_set_getD_mem _ _ _ _ hi ?_
                rw [List.length_set, hPn]
                exact (hImem i hi).1
  obtain ⟨hc, hnl, hgs⟩ := hmain
  intro g hg
  obtain ⟨hmem, nn, hnn⟩ := hgs g hg
  refine ⟨fun i hi => (hmem i hi).2.2, ?_, ?_⟩
  · intro i hi j hj
    rw [hnn i hi, hnn j hj]
  · intro i hi j hj
    exact distSq_pair_lt _ _ _ npEpsilon (by norm_num [npEpsilon])
      (hmem i hi).2.2 (hmem j hj).2.2

set_option maxHeartbeats 1600000 in
/-- Claim C4 is false as stated, on both halves, at one concrete mesh (weld
cosine threshold `c = 0`, i.e. `weld_angle = 90° ≥ 0`, for which the embedded
angle test is exact; the `normalize` oracle is the identity, exact on the unit
accumulator `(1,0,0)` it is applied to; `mask` off, `smoothing` off).  The
mesh puts vertex 0 at x = 0 with normal (1,0,0), vertices 1 and 3 at
x = 9e-8 and 1.8e-7 with identical normals (0,1,0), and vertex 2 at
x = -9.5e-8 with normal (0,1,0).  Vertex 0 seeds a group that absorbs
vertices 1 and 2 (both within `npEpsilon` of it, both within 90°), assigning
them its normal (1,0,0); vertex 3 is left alone.  Then: vertices 1 and 3 are
within `npEpsilon` of each other with identical pre-call normals yet end with
different normals (first half falsified), and vertices 1 and 2 are farther
than `npEpsilon` apart yet are assigned the same group normal (second half
falsified). -/
theorem C4_counterexample :
    distSq (⟨9 / 100000000, 0, 0⟩ : Vec3) ⟨18 / 100000000, 0, 0⟩ < npEpsilon ^ 2 ∧
    npEpsilon ^ 2 < distSq (⟨9 / 100000000, 0, 0⟩ : Vec3)
      ⟨-(95 : ℚ) / 1000000000, 0, 0⟩ ∧
    (npWeld ⟨[], [⟨0, 0, 0⟩, ⟨9 / 100000000, 0, 0⟩, ⟨-(95 : ℚ) / 1000000000, 0, 0⟩,
        ⟨18 / 100000000, 0, 0⟩],
      [⟨1, 0, 0⟩, ⟨0, 1, 0⟩, ⟨0, 1, 0⟩, ⟨0, 1, 0⟩], [], [], [1, 1, 1, 1], 4, 0,
        Mat4.id⟩ false 0 false (fun v => v)).2 =
      [⟨1, 0, 0⟩, ⟨1, 0, 0⟩, ⟨1, 0, 0⟩, ⟨0, 1, 0⟩] ∧
    (⟨1, 0, 0⟩ : Vec3) ≠ ⟨0, 1, 0⟩ := by
  refine ⟨?_, ?_, ?_, by simp⟩
  · norm_num [distSq, Vec3.sub, Vec3.lengthSq, npEpsilon]
  · norm_num [distSq, Vec3.sub, Vec3.lengthSq, npEpsilon]
  · have hr : List.range 4 = [0, 1, 2, 3] := by decide
    have hrep : List.replicate 4 false = [false, false, false, false] := by decide
    have e0 : weldOuter [⟨0, 0, 0⟩, ⟨9 / 100000000, 0, 0⟩,
        ⟨-(95 : ℚ) / 1000000000, 0, 0⟩, ⟨18 / 100000000, 0, 0⟩] [1, 1, 1, 1]
        false false 0 (fun v => v) 4
        ⟨[⟨1, 0, 0⟩, ⟨0, 1, 0⟩, ⟨0, 1, 0⟩, ⟨0, 1, 0⟩],
          [false, false, false, false], [], 0⟩ 0 =
        ⟨[⟨1, 0, 0⟩, ⟨1, 0, 0⟩, ⟨1, 0, 0⟩, ⟨0, 1, 0⟩], [false, true, true, false],
          [(0, [1, 2])], 1⟩ := by
      norm_num [weldOuter, weldCollect, cosGe, distSq, Vec3.sub, Vec3.lengthSq,
        Vec3.dot, Vec3.zero, npEpsilon, hr, List.getD, decide_eq_true_eq,
        Bool.and_eq_true, Bool.or_eq_true]
      decide
    have e1 : weldOuter [⟨0, 0, 0⟩, ⟨9 / 100000000, 0, 0⟩,
        ⟨-(95 : ℚ) / 1000000000, 0, 0⟩, ⟨18 / 100000000, 0, 0⟩] [1, 1, 1, 1]
        false false 0 (fun v => v) 4
        ⟨[⟨1, 0, 0⟩, ⟨1, 0, 0⟩, ⟨1, 0, 0⟩, ⟨0, 1, 0⟩], [false, true, true, false],
          [(0, [1, 2])], 1⟩ 1 =
        ⟨[⟨1, 0, 0⟩, ⟨1, 0, 0⟩, ⟨1, 0, 0⟩, ⟨0, 1, 0⟩], [false, true, true, false],
          [(0, [1, 2])], 1⟩ := by
      norm_num [weldOuter, List.getD]
    have e2 : weldOuter [⟨0, 0, 0⟩, ⟨9 / 100000000, 0, 0⟩,
        ⟨-(95 : ℚ) / 1000000000, 0, 0⟩, ⟨18 / 100000000, 0, 0⟩] [1, 1, 1, 1]
        false false 0 (fun v => v) 4
        ⟨[⟨1, 0, 0⟩, ⟨1, 0, 0⟩, ⟨1, 0, 0⟩, ⟨0, 1, 0⟩], [false, true, true, false],
          [(0, [1, 2])], 1⟩ 2 =
        ⟨[⟨1, 0, 0⟩, ⟨1, 0, 0⟩, ⟨1, 0, 0⟩, ⟨0, 1, 0⟩], [false, true, true, false],
          [(0, [1, 2])], 1⟩ := by
      norm_num [weldOuter, List.getD]
    have e3 : weldOuter [⟨0, 0, 0⟩, ⟨9 / 100000000, 0, 0⟩,
        ⟨-(95 : ℚ) / 1000000000, 0, 0⟩, ⟨18 / 100000000, 0, 0⟩] [1, 1, 1, 1]
        false false 0 (fun v => v) 4
        ⟨[⟨1, 0, 0⟩, ⟨1, 0, 0⟩, ⟨1, 0, 0⟩, ⟨0, 1, 0⟩], [false, true, true, false],
          [(0, [1, 2])], 1⟩ 3 =
        ⟨[⟨1, 0, 0⟩, ⟨1, 0, 0⟩, ⟨1, 0, 0⟩, ⟨0, 1, 0⟩], [false, true, true, false],
          [(0, [1, 2])], 1⟩ := by
      norm_num [weldOuter, weldCollect, cosGe, distSq, Vec3.sub, Vec3.lengthSq,
        Vec3.dot, Vec3.zero, npEpsilon, hr, List.getD, decide_eq_true_eq,
        Bool.and_eq_true, Bool.or_eq_true]
    unfold npWeld npWeldAux
    simp only [hr, hrep, List.foldl_cons, List.foldl_nil, e0, e1, e2, e3]

/-- Witness for C4's amended theorem at a two-vertex mesh with coincident
positions: the weld forms the group (seed 0, member 1), and the member lies
within `npEpsilon` of the seed. -/
theorem C4_weld_witness :
    ((0 : ℕ), [1]) ∈ (npWeldAux ⟨[], [⟨0, 0, 0⟩, ⟨0, 0, 0⟩], [⟨0, 1, 0⟩, ⟨0, 1, 0⟩],
      [], [], [1, 1], 2, 0, Mat4.id⟩ false 0 false (fun v => v)).groups ∧
    distSq ((⟨0, 0, 0⟩ : Vec3)) ⟨0, 0, 0⟩ < npEpsilon ^ 2 := by
  have hmem : ((0 : ℕ), [1]) ∈ (npWeldAux ⟨[], [⟨0, 0, 0⟩, ⟨0, 0, 0⟩],
      [⟨0, 1, 0⟩, ⟨0, 1, 0⟩], [], [], [1, 1], 2, 0, Mat4.id⟩ false 0 false
      (fun v => v)).groups := by
    norm_num [npWeldAux, weldOuter, weldCollect, cosGe, distSq, Vec3.sub,
      Vec3.lengthSq, Vec3.dot, Vec3.add, Vec3.zero, npEpsilon, List.range_succ,
      List.getD, decide_eq_true_eq, Bool.and_eq_true, Bool.or_eq_true]
  refine ⟨hmem, ?_⟩
  exact ((C4_weld_amended ⟨[], [⟨0, 0, 0⟩, ⟨0, 0, 0⟩], [⟨0, 1, 0⟩, ⟨0, 1, 0⟩],
    [], [], [1, 1], 2, 0, Mat4.id⟩ false 0 false (fun v => v) rfl) _ hmem).1 1
    (by simp)

/-! ### Claim C7 -/

theorem pickFold_mem (model : MeshData) (lcampos : Vec3) (nrm : Vec3 → Vec3) :
    ∀ (cs : List (ℕ × ℚ)) (st : ℕ × ℚ × ℚ),
      cs.foldl (pickStep model lcampos nrm) st = st ∨
      ∃ c ∈ cs, (cs.foldl (pickStep model lcampos nrm) st).1 = c.1 ∧
        (cs.foldl (pickStep model lcampos nrm) st).2.1 = c.2 := by
  intro cs
  induction cs with
  | nil => intro st; exact Or.inl rfl
  | cons c t ih =>
    intro st
    rw [List.foldl_cons]
    have hc : pickStep model lcampos nrm st c = st ∨
        pickStep model lcampos nrm st c =
          (c.1, c.2, (model.normals.getD c.1 Vec3.zero).dot
            (nrm ((model.vertices.getD c.1 Vec3.zero).sub lcampos))) := by
      simp only [pickStep]
      split
      · split
        · exact Or.inr rfl
        · exact Or.inl rfl
      · split
        · exact Or.inr rfl
        · exact Or.inl rfl
    rcases ih (pickStep model lcampos nrm st c) with h | ⟨c', hc', h1, h2⟩
    · rw [h]
      rcases hc with h' | h'
      · exact Or.inl h'
      · exact Or.inr ⟨c, by simp, by rw [h'], by rw [h']⟩
    · exact Or.inr ⟨c', by simp [hc'], h1, h2⟩

theorem pickFold_init_mem (model : MeshData) (lcampos : Vec3) (nrm : Vec3 → Vec3)
    (cs : List (ℕ × ℚ)) (hne : cs ≠ [])
    (hbd : ∀ c ∈ cs, c.2 + npEpsilon ≤ fltMax) :
    ∃ c ∈ cs, (cs.foldl (pickStep model lcampos nrm) ((0 : ℕ), fltMax, (1 : ℚ))).1 = c.1 ∧
      (cs.foldl (pickStep model lcampos nrm) ((0 : ℕ), fltMax, (1 : ℚ))).2.1 = c.2 := by
  cases cs with
  | nil => exact absurd rfl hne
  | cons c t =>
    rw [List.foldl_cons]
    have hcb := hbd c (by simp)
    have heps : (0 : ℚ) < npEpsilon := by norm_num [npEpsilon]
    have habs : npEpsilon ≤ |c.2 - fltMax| := by
      rw [abs_sub_comm, abs_of_nonneg (by linarith)]
      linarith
    have hne2 : nearEqual c.2 fltMax npEpsilon = false := by
      simp [nearEqual]
      linarith
    have hlt : c.2 < fltMax := by linarith
    have hstep : pickStep model lcampos nrm ((0 : ℕ), fltMax, (1 : ℚ)) c =
        (c.1, c.2, (model.normals.getD c.1 Vec3.zero).dot
          (nrm ((model.vertices.getD c.1 Vec3.zero).sub lcampos))) := by
      simp only [pickStep]
      rw [show nearEqual c.2 ((0 : ℕ), fltMax, (1 : ℚ)).2.1 npEpsilon = false from hne2]
      simp [hlt]
    rw [hstep]
    rcases pickFold_mem model lcampos nrm t
        (c.1, c.2, (model.normals.getD c.1 Vec3.zero).dot
          (nrm ((model.vertices.getD c.1 Vec3.zero).sub lcampos))) with h | ⟨c', hc', h1, h2⟩
    · exact ⟨c, by simp, by rw [h], by rw [h]⟩
    · exact ⟨c', by simp [hc'], h1, h2⟩

theorem pickFold_min (model : MeshData) (lcampos : Vec3) (nrm : Vec3 → Vec3) :
    ∀ (cs : List (ℕ × ℚ)) (st : ℕ × ℚ × ℚ),
      (∀ c ∈ cs, npEpsilon ≤ |c.2 - st.2.1|) →
      List.Pairwise (fun c c' => npEpsilon ≤ |c'.2 - c.2|) cs →
      (cs.foldl (pickStep model lcampos nrm) st).2.1 ≤ st.2.1 ∧
      (∀ c ∈ cs, (cs.foldl (pickStep model lcampos nrm) st).2.1 ≤ c.2) := by
  intro cs
  induction cs with
  | nil => intro st _ _; exact ⟨le_refl _, by simp⟩
  | cons c t ih =>
    intro st hsep hpw
    rw [List.foldl_cons]
    have hcs := hsep c (by simp)
    have hne2 : nearEqual c.2 st.2.1 npEpsilon = false := by
      simp [nearEqual]
      linarith [abs_nonneg (c.2 - st.2.1)]
    by_cases hlt : c.2 < st.2.1
    · have hstep : pickStep model lcampos nrm st c =
          (c.1, c.2, (model.normals.getD c.1 Vec3.zero).dot
            (nrm ((model.vertices.getD c.1 Vec3.zero).sub lcampos))) := by
        simp only [pickStep]
        rw [hne2]
        simp [hlt]
      rw [hstep]
      have hsep' : ∀ c' ∈ t, npEpsilon ≤ |c'.2 - (c.1, c.2,
          (model.normals.getD c.1 Vec3.zero).dot
            (nrm ((model.vertices.getD c.1 Vec3.zero).sub lcampos))).2.1| := by
        intro c' hc'
        exact (List.pairwise_cons.mp hpw).1 c' hc'
      obtain ⟨hle, hall⟩ := ih _ hsep' (List.pairwise_cons.mp hpw).2
      refine ⟨le_trans hle (le_of_lt hlt), ?_⟩
      intro c' hc'
      rcases List.mem_cons.mp hc' with h | h
      · subst h
        exact hle
      · exact hall c' h
    · have hstep : pickStep model lcampos nrm st c = st := by
        simp only [pickStep]
        rw [hne2]
        simp [hlt]
      rw [hstep]
      have hsep' : ∀ c' ∈ t, npEpsilon ≤ |c'.2 - st.2.1| := fun c' hc' =>
        hsep c' (by simp [hc'])
      obtain ⟨hle, hall⟩ := ih st hsep' (List.pairwise_cons.mp hpw).2
      refine ⟨hle, ?_⟩
      intro c' hc'
      rcases List.mem_cons.mp hc' with h | h
      · subst h
        exact le_trans hle (le_of_not_lt hlt)
      · exact hall c' h

theorem pickCandidates_length_le (model : MeshData) (mvp : Mat4) (rmin rmax : Vec2)
    (ff : Bool) (ffHit : ℕ → Bool) (len2 : Vec2 → ℚ) :
    (pickCandidates model mvp rmin rmax ff ffHit len2).length ≤ 64 := by
  unfold pickCandidates
  simp [List.length_take]

theorem pickCandidates_mem (model : MeshData) (mvp : Mat4) (rmin rmax : Vec2)
    (ff : Bool) (ffHit : ℕ → Bool) (len2 : Vec2 → ℚ) (vi : ℕ) (d : ℚ)
    (h : (vi, d) ∈ pickCandidates model mvp rmin rmax ff ffHit len2) :
    vi < model.num_vertices ∧
    (rmin.x ≤ (mvp.mul4 (model.vertices.getD vi Vec3.zero)).x /
        (mvp.mul4 (model.vertices.getD vi Vec3.zero)).w ∧
      (mvp.mul4 (model.vertices.getD vi Vec3.zero)).x /
        (mvp.mul4 (model.vertices.getD vi Vec3.zero)).w ≤ rmax.x ∧
      rmin.y ≤ (mvp.mul4 (model.vertices.getD vi Vec3.zero)).y /
        (mvp.mul4 (model.vertices.getD vi Vec3.zero)).w ∧
      (mvp.mul4 (model.vertices.getD vi Vec3.zero)).y /
        (mvp.mul4 (model.vertices.getD vi Vec3.zero)).w ≤ rmax.y ∧
      0 < (mvp.mul4 (model.vertices.getD vi Vec3.zero)).z) ∧
    (ff = false ∨ ffHit vi = true) ∧
    d = len2 ((Vec2.mk
        ((mvp.mul4 (model.vertices.getD vi Vec3.zero)).x /
          (mvp.mul4 (model.vertices.getD vi Vec3.zero)).w)
        ((mvp.mul4 (model.vertices.getD vi Vec3.zero)).y /
          (mvp.mul4 (model.vertices.getD vi Vec3.zero)).w)).sub
        ((rmin.add rmax).scale (1 / 2))) := by
  unfold pickCandidates at h
  have h2 := List.mem_of_mem_take h
  obtain ⟨a, ha, hfa⟩ := List.mem_filterMap.mp h2
  simp only [] at hfa
  by_cases hc : ((rmin.x ≤ (mvp.mul4 (model.vertices.getD a Vec3.zero)).x /
        (mvp.mul4 (model.vertices.getD a Vec3.zero)).w ∧
      (mvp.mul4 (model.vertices.getD a Vec3.zero)).x /
        (mvp.mul4 (model.vertices.getD a Vec3.zero)).w ≤ rmax.x ∧
      rmin.y ≤ (mvp.mul4 (model.vertices.getD a Vec3.zero)).y /
        (mvp.mul4 (model.vertices.getD a Vec3.zero)).w ∧
      (mvp.mul4 (model.vertices.getD a Vec3.zero)).y /
        (mvp.mul4 (model.vertices.getD a Vec3.zero)).w ≤ rmax.y ∧
      0 < (mvp.mul4 (model.vertices.getD a Vec3.zero)).z) ∧
      (ff = false ∨ ffHit a = true))
  · rw [if_pos hc] at hfa
    have hpair := Option.some.inj hfa
    have hav : a = vi := congrArg Prod.fst hpair
    have hdv := congrArg Prod.snd hpair
    subst hav
    exact ⟨List.mem_range.mp ha, hc.1, hc.2, hdv.symm⟩
  · rw [if_neg hc] at hfa
    exact absurd hfa (by simp)

/-- Claim C7 (amended).  `npSelectNearestImpl` (1) returns one of the retained
candidates — a vertex whose projection lies inside the rectangle with
clip-space `vp.z > 0`, optionally front-face filtered; (2) retains at most 64
candidates, extras being silently dropped; and (3) returns the candidate
whose screen projection is **strictly nearest the rectangle's center only
when no two candidate distances lie within `npEpsilon` of each other** — for
near-ties (within `npEpsilon`) the source deliberately prefers the candidate
whose normal faces the camera least directly, which can return a
not-strictly-nearest vertex (see the counterexample).  The candidate-distance
bound `c.2 + npEpsilon ≤ fltMax` reflects that float distances lie below
`FLT_MAX`, the reduction seed. -/
theorem C7_pick_amended (model : MeshData) (mvp : Mat4) (rmin rmax : Vec2)
    (campos : Vec3) (ff : Bool) (ffHit : ℕ → Bool) (len2 : Vec2 → ℚ)
    (nrm : Vec3 → Vec3) :
    (∀ r, npSelectNearestImpl model mvp rmin rmax campos ff ffHit len2 nrm = some r →
      (∀ c ∈ pickCandidates model mvp rmin rmax ff ffHit len2,
        c.2 + npEpsilon ≤ fltMax) →
      ∃ d, (r, d) ∈ pickCandidates model mvp rmin rmax ff ffHit len2) ∧
    ((pickCandidates model mvp rmin rmax ff ffHit len2).length ≤ 64) ∧
    (∀ vi d, (vi, d) ∈ pickCandidates model mvp rmin rmax ff ffHit len2 →
      vi < model.num_vertices ∧
      0 < (mvp.mul4 (model.vertices.getD vi Vec3.zero)).z ∧
      (ff = false ∨ ffHit vi = true)) ∧
    (∀ r, npSelectNearestImpl model mvp rmin rmax campos ff ffHit len2 nrm = some r →
      (∀ c ∈ pickCandidates model mvp rmin rmax ff ffHit len2,
        c.2 + npEpsilon ≤ fltMax) →
      List.Pairwise (fun c c' => npEpsilon ≤ |c'.2 - c.2|)
        (pickCandidates model mvp rmin rmax ff ffHit len2) →
      ∃ d, (r, d) ∈ pickCandidates model mvp rmin rmax ff ffHit len2 ∧
        ∀ c ∈ pickCandidates model mvp rmin rmax ff ffHit len2, d ≤ c.2) := by
  have heps : (0 : ℚ) < npEpsilon := by norm_num [npEpsilon]
  refine ⟨?_, pickCandidates_length_le _ _ _ _ _ _ _, ?_, ?_⟩
  · intro r hsome hbd
    simp only [npSelectNearestImpl] at hsome
    by_cases hemp : (pickCandidates model mvp rmin rmax ff ffHit len2).isEmpty
    · rw [if_pos hemp] at hsome
      exact absurd hsome (by simp)
    · rw [if_neg hemp] at hsome
      obtain ⟨c, hcmem, h1, h2⟩ := pickFold_init_mem model
        ((Mat4.invert model.transform).mulP campos) nrm
        (pickCandidates model mvp rmin rmax ff ffHit len2)
        (by simpa [List.isEmpty_iff] using hemp) hbd
      refine ⟨c.2, ?_⟩
      have hr : r = c.1 := by
        have := Option.some.inj hsome
        rw [← this, h1]
      rw [hr]
      simpa using hcmem
  · intro vi d hmem
    obtain ⟨hlt, hcond, hff, _⟩ := pickCandidates_mem _ _ _ _ _ _ _ _ _ hmem
    exact ⟨hlt, hcond.2.2.2.2, hff⟩
  · intro r hsome hbd hpw
    simp only [npSelectNearestImpl] at hsome
    by_cases hemp : (pickCandidates model mvp rmin rmax ff ffHit len2).isEmpty
    · rw [if_pos hemp] at hsome
      exact absurd hsome (by simp)
    · rw [if_neg hemp] at hsome
      obtain ⟨c, hcmem, h1, h2⟩ := pickFold_init_mem model
        ((Mat4.invert model.transform).mulP campos) nrm
        (pickCandidates model mvp rmin rmax ff ffHit len2)
        (by simpa [List.isEmpty_iff] using hemp) hbd
      have hsep : ∀ c' ∈ pickCandidates model mvp rmin rmax ff ffHit len2,
          npEpsilon ≤ |c'.2 - ((0 : ℕ), fltMax, (1 : ℚ)).2.1| := by
        intro c' hc'
        have := hbd c' hc'
        rw [abs_sub_comm, abs_of_nonneg (by simp; linarith)]
        simp
        linarith
      obtain ⟨hle, hall⟩ := pickFold_min model
        ((Mat4.invert model.transform).mulP campos) nrm
        (pickCandidates model mvp rmin rmax ff ffHit len2)
        ((0 : ℕ), fltMax, (1 : ℚ)) hsep hpw
      have hr : r = c.1 := by
        have := Option.some.inj hsome
        rw [← this, h1]
      refine ⟨c.2, by rw [hr]; simpa using hcmem, ?_⟩
      intro c' hc'
      rw [← h2]
      exact hall c' hc'

/-- Claim C7 is false as stated: two candidates project to center distances
3/5 and 3/5 + 1/20000000 — within the `npEpsilon` tie window but not equal —
and the pick returns vertex 1, whose distance is strictly larger, because its
normal faces the camera less directly (facing -1 versus 1).  The oracles are
exact here: `len2 = |x| + |y|` is the Euclidean length on these y = 0 screen
points, and the identity `nrm` only scales the facing values positively, so
the sign comparison (-1 < 1) matches true normalization. -/
theorem C7_counterexample :
    npSelectNearestImpl
      ⟨[], [⟨3 / 5, 0, 1⟩, ⟨3 / 5 + 1 / 20000000, 0, 1⟩], [⟨0, 0, 1⟩, ⟨0, 0, -1⟩],
        [], [], [], 2, 0, ⟨1, 0, 0, 0, 0, 1, 0, 0, 0, 0, 1, 0, 0, 0, 0, 1⟩⟩
      ⟨1, 0, 0, 0, 0, 1, 0, 0, 0, 0, 1, 0, 0, 0, 0, 1⟩ ⟨-1, -1⟩ ⟨1, 1⟩ ⟨0, 0, 0⟩
      false (fun _ => true) (fun v => |v.x| + |v.y|) (fun v => v) = some 1 ∧
    ((0 : ℕ), (3 : ℚ) / 5) ∈ pickCandidates
      ⟨[], [⟨3 / 5, 0, 1⟩, ⟨3 / 5 + 1 / 20000000, 0, 1⟩], [⟨0, 0, 1⟩, ⟨0, 0, -1⟩],
        [], [], [], 2, 0, ⟨1, 0, 0, 0, 0, 1, 0, 0, 0, 0, 1, 0, 0, 0, 0, 1⟩⟩
      ⟨1, 0, 0, 0, 0, 1, 0, 0, 0, 0, 1, 0, 0, 0, 0, 1⟩ ⟨-1, -1⟩ ⟨1, 1⟩ false
      (fun _ => true) (fun v => |v.x| + |v.y|) ∧
    ((1 : ℕ), (3 : ℚ) / 5 + 1 / 20000000) ∈ pickCandidates
      ⟨[], [⟨3 / 5, 0, 1⟩, ⟨3 / 5 + 1 / 20000000, 0, 1⟩], [⟨0, 0, 1⟩, ⟨0, 0, -1⟩],
        [], [], [], 2, 0, ⟨1, 0, 0, 0, 0, 1, 0, 0, 0, 0, 1, 0, 0, 0, 0, 1⟩⟩
      ⟨1, 0, 0, 0, 0, 1, 0, 0, 0, 0, 1, 0, 0, 0, 0, 1⟩ ⟨-1, -1⟩ ⟨1, 1⟩ false
      (fun _ => true) (fun v => |v.x| + |v.y|) ∧
    (3 : ℚ) / 5 < 3 / 5 + 1 / 20000000 := by
  have hinv : Mat4.invert ⟨1, 0, 0, 0, 0, 1, 0, 0, 0, 0, 1, 0, 0, 0, 0, 1⟩ =
      ⟨1, 0, 0, 0, 0, 1, 0, 0, 0, 0, 1, 0, 0, 0, 0, 1⟩ := by
    unfold Mat4.invert
    norm_num [Mat4.det, Mat4.det3, Mat4.id]
  have hcands : pickCandidates
      ⟨[], [⟨3 / 5, 0, 1⟩, ⟨3 / 5 + 1 / 20000000, 0, 1⟩], [⟨0, 0, 1⟩, ⟨0, 0, -1⟩],
        [], [], [], 2, 0, ⟨1, 0, 0, 0, 0, 1, 0, 0, 0, 0, 1, 0, 0, 0, 0, 1⟩⟩
      ⟨1, 0, 0, 0, 0, 1, 0, 0, 0, 0, 1, 0, 0, 0, 0, 1⟩ ⟨-1, -1⟩ ⟨1, 1⟩ false
      (fun _ => true) (fun v => |v.x| + |v.y|) =
      [(0, 3 / 5), (1, 3 / 5 + 1 / 20000000)] := by
    norm_num [pickCandidates, Mat4.mul4, Vec2.add, Vec2.sub, Vec2.scale,
      List.range_succ, List.getD, Vec3.zero, List.filterMap_cons]
  refine ⟨?_, by rw [hcands]; simp, by rw [hcands]; simp, by norm_num⟩
  simp only [npSelectNearestImpl, hcands, hinv]
  norm_num [pickStep, nearEqual, npEpsilon, fltMax, Mat4.mulP, Vec3.sub, Vec3.dot,
    Vec3.zero, List.getD, abs_lt]

/-- Witness for C7's amended theorem: two well-separated candidates at
distances 1/2 and 1/4; the theorem yields candidacy of the result, the
64-candidate cap, and minimality of the returned distance. -/
theorem C7_pick_witness :
    (1 : ℕ) < 2 ∧
    (pickCandidates
      ⟨[], [⟨1 / 2, 0, 1⟩, ⟨-(1 : ℚ) / 4, 0, 1⟩], [⟨0, 0, 1⟩, ⟨0, 0, 1⟩],
        [], [], [], 2, 0, ⟨1, 0, 0, 0, 0, 1, 0, 0, 0, 0, 1, 0, 0, 0, 0, 1⟩⟩
      ⟨1, 0, 0, 0, 0, 1, 0, 0, 0, 0, 1, 0, 0, 0, 0, 1⟩ ⟨-1, -1⟩ ⟨1, 1⟩ false
      (fun _ => true) (fun v => |v.x| + |v.y|)).length ≤ 64 ∧
    (1 : ℚ) / 4 ≤ 1 / 2 := by
  have hinv : Mat4.invert ⟨1, 0, 0, 0, 0, 1, 0, 0, 0, 0, 1, 0, 0, 0, 0, 1⟩ =
      ⟨1, 0, 0, 0, 0, 1, 0, 0, 0, 0, 1, 0, 0, 0, 0, 1⟩ := by
    unfold Mat4.invert
    norm_num [Mat4.det, Mat4.det3, Mat4.id]
  have hcands : pickCandidates
      ⟨[], [⟨1 / 2, 0, 1⟩, ⟨-(1 : ℚ) / 4, 0, 1⟩], [⟨0, 0, 1⟩, ⟨0, 0, 1⟩],
        [], [], [], 2, 0, ⟨1, 0, 0, 0, 0, 1, 0, 0, 0, 0, 1, 0, 0, 0, 0, 1⟩⟩
      ⟨1, 0, 0, 0, 0, 1, 0, 0, 0, 0, 1, 0, 0, 0, 0, 1⟩ ⟨-1, -1⟩ ⟨1, 1⟩ false
      (fun _ => true) (fun v => |v.x| + |v.y|) = [(0, 1 / 2), (1, 1 / 4)] := by
    norm_num [pickCandidates, Mat4.mul4, Vec2.add, Vec2.sub, Vec2.scale,
      List.range_succ, List.getD, Vec3.zero, List.filterMap_cons]
  have hsome : npSelectNearestImpl
      ⟨[], [⟨1 / 2, 0, 1⟩, ⟨-(1 : ℚ) / 4, 0, 1⟩], [⟨0, 0, 1⟩, ⟨0, 0, 1⟩],
        [], [], [], 2, 0, ⟨1, 0, 0, 0, 0, 1, 0, 0, 0, 0, 1, 0, 0, 0, 0, 1⟩⟩
      ⟨1, 0, 0, 0, 0, 1, 0, 0, 0, 0, 1, 0, 0, 0, 0, 1⟩ ⟨-1, -1⟩ ⟨1, 1⟩ ⟨0, 0, 0⟩
      false (fun _ => true) (fun v => |v.x| + |v.y|) (fun v => v) = some 1 := by
    simp only [npSelectNearestImpl, hcands, hinv]
    norm_num [pickStep, nearEqual, npEpsilon, fltMax, Mat4.mulP, Vec3.sub, Vec3.dot,
      Vec3.zero, List.getD, abs_lt]
  have hbd : ∀ c ∈ pickCandidates
      ⟨[], [⟨1 / 2, 0, 1⟩, ⟨-(1 : ℚ) / 4, 0, 1⟩], [⟨0, 0, 1⟩, ⟨0, 0, 1⟩],
        [], [], [], 2, 0, ⟨1, 0, 0, 0, 0, 1, 0, 0, 0, 0, 1, 0, 0, 0, 0, 1⟩⟩
      ⟨1, 0, 0, 0, 0, 1, 0, 0, 0, 0, 1, 0, 0, 0, 0, 1⟩ ⟨-1, -1⟩ ⟨1, 1⟩ false
      (fun _ => true) (fun v => |v.x| + |v.y|), c.2 + npEpsilon ≤ fltMax := by
    rw [hcands]
    intro c hc
    rcases List.mem_cons.mp hc with h | h
    · subst h
      norm_num [npEpsilon, fltMax]
    · rcases List.mem_cons.mp h with h' | h'
      · subst h'
        norm_num [npEpsilon, fltMax]
      · exact absurd h' (by simp)
  have hpw : List.Pairwise (fun c c' => npEpsilon ≤ |c'.2 - c.2|)
      (pickCandidates
        ⟨[], [⟨1 / 2, 0, 1⟩, ⟨-(1 : ℚ) / 4, 0, 1⟩], [⟨0, 0, 1⟩, ⟨0, 0, 1⟩],
          [], [], [], 2, 0, ⟨1, 0, 0, 0, 0, 1, 0, 0, 0, 0, 1, 0, 0, 0, 0, 1⟩⟩
        ⟨1, 0, 0, 0, 0, 1, 0, 0, 0, 0, 1, 0, 0, 0, 0, 1⟩ ⟨-1, -1⟩ ⟨1, 1⟩ false
        (fun _ => true) (fun v => |v.x| + |v.y|)) := by
    rw [hcands]
    refine List.Pairwise.cons ?_ (List.Pairwise.cons (by simp) List.Pairwise.nil)
    intro c' hc'
    rcases List.mem_cons.mp hc' with h | h
    · subst h
      rw [show |((1 : ℕ), (1 : ℚ) / 4).2 - ((0 : ℕ), (1 : ℚ) / 2).2| = 1 / 4 by
        norm_num]
      norm_num [npEpsilon]
    · exact absurd h (by simp)
  obtain ⟨d, hdmem, hmin⟩ := (C7_pick_amended
    ⟨[], [⟨1 / 2, 0, 1⟩, ⟨-(1 : ℚ) / 4, 0, 1⟩], [⟨0, 0, 1⟩, ⟨0, 0, 1⟩],
      [], [], [], 2, 0, ⟨1, 0, 0, 0, 0, 1, 0, 0, 0, 0, 1, 0, 0, 0, 0, 1⟩⟩
    ⟨1, 0, 0, 0, 0, 1, 0, 0, 0, 0, 1, 0, 0, 0, 0, 1⟩ ⟨-1, -1⟩ ⟨1, 1⟩ ⟨0, 0, 0⟩
    false (fun _ => true) (fun v => |v.x| + |v.y|) (fun v => v)).2.2.2
    1 hsome hbd hpw
  have hd : d = 1 / 4 := by
    rw [hcands] at hdmem
    rcases List.mem_cons.mp hdmem with h | h
    · exact absurd (congrArg Prod.fst h) (by simp)
    · rcases List.mem_cons.mp h with h' | h'
      · exact congrArg Prod.snd h'
      · exact absurd h' (by simp)
  have hle := hmin (0, 1 / 2) (by rw [hcands]; simp)
  rw [hd] at hle
  exact ⟨by norm_num, pickCandidates_length_le _ _ _ _ _ _ _, by simpa using hle⟩

/-! ### Claim C6 -/

theorem Vec3_lerp_zero (a b : Vec3) : Vec3.lerp a b 0 = a := by
  cases a
  cases b
  simp [Vec3.lerp, Vec3.add, Vec3.sub, Vec3.scale]

theorem projForward_none (rayHit : Vec3 → Vec3 → Option (ℕ × ℚ))
    (genN : Vec3 → ℕ → Vec3) (genT : Vec3 → ℕ → Vec4) (rpos rdir : Vec3)
    (mode : ProjMode) (max_distance : ℚ)
    (h : ∀ t d, rayHit rpos rdir = some (t, d) → ¬ d < max_distance) :
    projForward rayHit genN genT rpos rdir mode max_distance = none := by
  unfold projForward
  split
  · cases hray : rayHit rpos rdir with
    | none => rfl
    | some td =>
      obtain ⟨t, d⟩ := td
      simp [h t d hray]
  · rfl

theorem projBackward_skip (rayHit : Vec3 → Vec3 → Option (ℕ × ℚ))
    (genN : Vec3 → ℕ → Vec3) (genT : Vec3 → ℕ → Vec4) (rpos rdir : Vec3)
    (mode : ProjMode) (max_distance : ℚ) (st1 : Option (ℚ × Vec3 × Vec3 × Vec4))
    (h : ∀ t d, rayHit rpos rdir.neg = some (t, d) → ¬ d < max_distance) :
    projBackward rayHit genN genT rpos rdir mode max_distance st1 = st1 := by
  unfold projBackward
  split
  · cases hray : rayHit rpos rdir.neg with
    | none => rfl
    | some td =>
      obtain ⟨t, d⟩ := td
      simp [h t d hray]
  · rfl

theorem projForward_fb (rayHit : Vec3 → Vec3 → Option (ℕ × ℚ))
    (genN : Vec3 → ℕ → Vec3) (genT : Vec3 → ℕ → Vec4) (rpos rdir : Vec3)
    (max_distance : ℚ) (tf : ℕ) (df : ℚ)
    (hf : rayHit rpos rdir = some (tf, df)) (hdf : df < max_distance) :
    projForward rayHit genN genT rpos rdir ProjMode.forwardAndBackward max_distance
      = some (df, rpos.add (rdir.scale df), genN (rpos.add (rdir.scale df)) tf,
          genT (rpos.add (rdir.scale df)) tf) := by
  unfold projForward
  simp [hf, hdf]

theorem projBackward_fb (rayHit : Vec3 → Vec3 → Option (ℕ × ℚ))
    (genN : Vec3 → ℕ → Vec3) (genT : Vec3 → ℕ → Vec4) (rpos rdir : Vec3)
    (max_distance : ℚ) (tb : ℕ) (db df : ℚ) (rv rn : Vec3) (rt : Vec4)
    (hb : rayHit rpos rdir.neg = some (tb, db)) (hdb : db < max_distance) :
    projBackward rayHit genN genT rpos rdir ProjMode.forwardAndBackward max_distance
        (some (df, rv, rn, rt)) =
      (if db < df then
        some (db, rpos.add (rdir.neg.scale db), genN (rpos.add (rdir.neg.scale db)) tb,
          genT (rpos.add (rdir.neg.scale db)) tb)
      else some (df, rv, rn, rt)) := by
  unfold projBackward
  by_cases hlt : db < df
  · simp [hb, hdb, hlt]
  · simp [hb, hdb, hlt]

/-- Claim C6.  For every vertex processed by `npProjectVerticesImpl` (any
ray-direction source `ray_dirs`, any mode): (1) when neither the forward nor
the backward ray hits the target within `max_distance`, the vertex's
position, normal and tangent are all left unmodified; (2) an attribute whose
PNT bit is clear is never written; (3) in forward-and-backward mode with both
rays hitting within `max_distance`, the direction with the strictly smaller
hit distance is used (ties go to the forward ray) and the position is blended
by the per-vertex selection weight (`s = selection[vi]` under `mask`, else
1 — a zero weight leaves the vertex untouched, which the `lerp` by 0 also
expresses). -/
theorem C6_project_vertices (model : MeshData) (rayHit : Vec3 → Vec3 → Option (ℕ × ℚ))
    (genN : Vec3 → ℕ → Vec3) (genT : Vec3 → ℕ → Vec4) (hasN hasT : Bool)
    (nrm : Vec3 → Vec3) (ray_dirs : ℕ → Vec3) (mode : ProjMode)
    (max_distance : ℚ) (PNT : ℕ) (mask : Bool) (vi : ℕ)
    (hvi : vi < model.num_vertices) :
    ((∀ t d, rayHit (model.vertices.getD vi Vec3.zero) (ray_dirs vi) = some (t, d) →
        ¬ d < max_distance) →
     (∀ t d, rayHit (model.vertices.getD vi Vec3.zero) (ray_dirs vi).neg = some (t, d) →
        ¬ d < max_distance) →
     (npProjectVerticesImpl model rayHit genN genT hasN hasT nrm ray_dirs mode
        max_distance PNT mask).1.getD vi Vec3.zero = model.vertices.getD vi Vec3.zero ∧
     (npProjectVerticesImpl model rayHit genN genT hasN hasT nrm ray_dirs mode
        max_distance PNT mask).2.1.getD vi Vec3.zero = model.normals.getD vi Vec3.zero ∧
     (npProjectVerticesImpl model rayHit genN genT hasN hasT nrm ray_dirs mode
        max_distance PNT mask).2.2.getD vi Vec4.zero = model.tangents.getD vi Vec4.zero) ∧
    ((PNT.testBit 0 = false →
      (npProjectVerticesImpl model rayHit genN genT hasN hasT nrm ray_dirs mode
        max_distance PNT mask).1.getD vi Vec3.zero = model.vertices.getD vi Vec3.zero) ∧
     (PNT.testBit 1 = false →
      (npProjectVerticesImpl model rayHit genN genT hasN hasT nrm ray_dirs mode
        max_distance PNT mask).2.1.getD vi Vec3.zero = model.normals.getD vi Vec3.zero) ∧
     (PNT.testBit 2 = false →
      (npProjectVerticesImpl model rayHit genN genT hasN hasT nrm ray_dirs mode
        max_distance PNT mask).2.2.getD vi Vec4.zero = model.tangents.getD vi Vec4.zero)) ∧
    (∀ tf tb : ℕ, ∀ df db : ℚ,
      mode = ProjMode.forwardAndBackward →
      rayHit (model.vertices.getD vi Vec3.zero) (ray_dirs vi) = some (tf, df) →
      df < max_distance →
      rayHit (model.vertices.getD vi Vec3.zero) (ray_dirs vi).neg = some (tb, db) →
      db < max_distance →
      PNT.testBit 0 = true →
      (npProjectVerticesImpl model rayHit genN genT hasN hasT nrm ray_dirs mode
        max_distance PNT mask).1.getD vi Vec3.zero =
        Vec3.lerp (model.vertices.getD vi Vec3.zero)
          (if db < df then
            (model.vertices.getD vi Vec3.zero).add ((ray_dirs vi).neg.scale db)
          else (model.vertices.getD vi Vec3.zero).add ((ray_dirs vi).scale df))
          (if mask then model.selection.getD vi 0 else 1)) := by
  have hr1 : (npProjectVerticesImpl model rayHit genN genT hasN hasT nrm ray_dirs mode
      max_distance PNT mask).1.getD vi Vec3.zero =
      (projVertexStep model rayHit genN genT hasN hasT nrm ray_dirs mode
        max_distance PNT mask vi).1 := by
    simp only [npProjectVerticesImpl]
    exact getD_map_range _ _ hvi
  have hr2 : (npProjectVerticesImpl model rayHit genN genT hasN hasT nrm ray_dirs mode
      max_distance PNT mask).2.1.getD vi Vec3.zero =
      (projVertexStep model rayHit genN genT hasN hasT nrm ray_dirs mode
        max_distance PNT mask vi).2.1 := by
    simp only [npProjectVerticesImpl]
    exact getD_map_range _ _ hvi
  have hr3 : (npProjectVerticesImpl model rayHit genN genT hasN hasT nrm ray_dirs mode
      max_distance PNT mask).2.2.getD vi Vec4.zero =
      (projVertexStep model rayHit genN genT hasN hasT nrm ray_dirs mode
        max_distance PNT mask vi).2.2 := by
    simp only [npProjectVerticesImpl]
    exact getD_map_range _ _ hvi
  refine ⟨?_, ?_, ?_⟩
  · intro hmf hmb
    have hpick : projBackward rayHit genN genT (model.vertices.getD vi Vec3.zero)
        (ray_dirs vi) mode max_distance
        (projForward rayHit genN genT (model.vertices.getD vi Vec3.zero)
          (ray_dirs vi) mode max_distance) = none := by
      rw [projForward_none _ _ _ _ _ _ _ hmf]
      exact projBackward_skip _ _ _ _ _ _ _ _ hmb
    have hstep : projVertexStep model rayHit genN genT hasN hasT nrm ray_dirs mode
        max_distance PNT mask vi =
        (model.vertices.getD vi Vec3.zero, model.normals.getD vi Vec3.zero,
         model.tangents.getD vi Vec4.zero) := by
      simp only [projVertexStep]
      by_cases hs : (if mask then model.selection.getD vi 0 else 1) = 0
      · rw [if_pos hs]
      · rw [if_neg hs, hpick]
    rw [hr1, hr2, hr3, hstep]
    exact ⟨rfl, rfl, rfl⟩
  · refine ⟨fun hb0 => ?_, fun hb1 => ?_, fun hb2 => ?_⟩
    · rw [hr1]
      simp only [projVertexStep]
      by_cases hs : (if mask then model.selection.getD vi 0 else 1) = 0
      · rw [if_pos hs]
      · rw [if_neg hs]
        cases hpick : projBackward rayHit genN genT (model.vertices.getD vi Vec3.zero)
            (ray_dirs vi) mode max_distance
            (projForward rayHit genN genT (model.vertices.getD vi Vec3.zero)
              (ray_dirs vi) mode max_distance) with
        | none => rfl
        | some q =>
          obtain ⟨md, rv, rn, rt⟩ := q
          simp [hb0]
    · rw [hr2]
      simp only [projVertexStep]
      by_cases hs : (if mask then model.selection.getD vi 0 else 1) = 0
      · rw [if_pos hs]
      · rw [if_neg hs]
        cases hpick : projBackward rayHit genN genT (model.vertices.getD vi Vec3.zero)
            (ray_dirs vi) mode max_distance
            (projForward rayHit genN genT (model.vertices.getD vi Vec3.zero)
              (ray_dirs vi) mode max_distance) with
        | none => rfl
        | some q =>
          obtain ⟨md, rv, rn, rt⟩ := q
          simp [hb1]
    · rw [hr3]
      simp only [projVertexStep]
      by_cases hs : (if mask then model.selection.getD vi 0 else 1) = 0
      · rw [if_pos hs]
      · rw [if_neg hs]
        cases hpick : projBackward rayHit genN genT (model.vertices.getD vi Vec3.zero)
            (ray_dirs vi) mode max_distance
            (projForward rayHit genN genT (model.vertices.getD vi Vec3.zero)
              (ray_dirs vi) mode max_distance) with
        | none => rfl
        | some q =>
          obtain ⟨md, rv, rn, rt⟩ := q
          simp [hb2]
  · intro tf tb df db hmode hf hdf hb hdb hbit
    subst hmode
    rw [hr1]
    simp only [projVertexStep]
    by_cases hs : (if mask then model.selection.getD vi 0 else 1) = 0
    · rw [if_pos hs, hs, Vec3_lerp_zero]
    · rw [if_neg hs, projForward_fb _ _ _ _ _ _ _ _ hf hdf,
        projBackward_fb _ _ _ _ _ _ _ _ _ _ _ _ hb hdb]
      by_cases hlt : db < df
      · rw [if_pos hlt, if_pos hlt]
        simp [hbit]
      · rw [if_neg hlt, if_neg hlt]
        simp [hbit]

/-- Witness for C6 at a one-vertex model whose rays all miss: position, normal
and tangent are unchanged. -/
theorem C6_project_witness :
    (npProjectVerticesImpl
      ⟨[], [⟨0, 0, 0⟩], [⟨0, 0, 1⟩], [⟨1, 0, 0, 1⟩], [], [1], 1, 0, Mat4.id⟩
      (fun _ _ => none) (fun _ _ => Vec3.zero) (fun _ _ => Vec4.zero) true true
      (fun v => v) (fun _ => ⟨0, 0, 1⟩) ProjMode.forwardAndBackward 1 7
      false).1.getD 0 Vec3.zero = ⟨0, 0, 0⟩ ∧
    (npProjectVerticesImpl
      ⟨[], [⟨0, 0, 0⟩], [⟨0, 0, 1⟩], [⟨1, 0, 0, 1⟩], [], [1], 1, 0, Mat4.id⟩
      (fun _ _ => none) (fun _ _ => Vec3.zero) (fun _ _ => Vec4.zero) true true
      (fun v => v) (fun _ => ⟨0, 0, 1⟩) ProjMode.forwardAndBackward 1 7
      false).2.1.getD 0 Vec3.zero = ⟨0, 0, 1⟩ ∧
    (npProjectVerticesImpl
      ⟨[], [⟨0, 0, 0⟩], [⟨0, 0, 1⟩], [⟨1, 0, 0, 1⟩], [], [1], 1, 0, Mat4.id⟩
      (fun _ _ => none) (fun _ _ => Vec3.zero) (fun _ _ => Vec4.zero) true true
      (fun v => v) (fun _ => ⟨0, 0, 1⟩) ProjMode.forwardAndBackward 1 7
      false).2.2.getD 0 Vec4.zero = ⟨1, 0, 0, 1⟩ :=
  (C6_project_vertices _ _ _ _ _ _ _ _ _ _ _ _ 0 (by decide)).1
    (fun t d h => absurd h (by simp)) (fun t d h => absurd h (by simp))

/-! ### Claim C9 -/

theorem furthestFold_inv (pass : ℕ → Bool) (dsq : ℕ → ℚ) (n : ℕ) :
    fltMin ≤ ((List.range n).foldl (furthestStep pass dsq) (fltMin, 0)).1 ∧
    (((List.range n).foldl (furthestStep pass dsq) (fltMin, 0)).1 = fltMin ∨
      (((List.range n).foldl (furthestStep pass dsq) (fltMin, 0)).2 < n ∧
       pass ((List.range n).foldl (furthestStep pass dsq) (fltMin, 0)).2 = true ∧
       ((List.range n).foldl (furthestStep pass dsq) (fltMin, 0)).1 =
         dsq ((List.range n).foldl (furthestStep pass dsq) (fltMin, 0)).2)) ∧
    (∀ j, j < n → pass j = true →
      dsq j ≤ ((List.range n).foldl (furthestStep pass dsq) (fltMin, 0)).1) := by
  induction n with
  | zero => exact ⟨le_refl _, Or.inl rfl, fun j hj _ => absurd hj (by omega)⟩
  | succ n ih =>
    obtain ⟨ih1, ih2, ih3⟩ := ih
    have hstep : (List.range (n + 1)).foldl (furthestStep pass dsq) (fltMin, 0) =
        furthestStep pass dsq ((List.range n).foldl (furthestStep pass dsq) (fltMin, 0)) n := by
      rw [List.range_succ, List.foldl_append]
      rfl
    set st := (List.range n).foldl (furthestStep pass dsq) (fltMin, 0) with hst
    rw [hstep]
    unfold furthestStep
    by_cases hp : pass n = true
    · by_cases hlt : st.1 < dsq n
      · rw [if_pos hp, if_pos hlt]
        refine ⟨le_of_lt (lt_of_le_of_lt ih1 hlt),
          Or.inr ⟨Nat.lt_succ_self n, hp, rfl⟩, ?_⟩
        intro j hj hpj
        rcases Nat.lt_succ_iff_lt_or_eq.mp hj with hj' | hj'
        · exact le_of_lt (lt_of_le_of_lt (ih3 j hj' hpj) hlt)
        · subst hj'
          exact le_refl _
      · rw [if_pos hp, if_neg hlt]
        refine ⟨ih1, ?_, ?_⟩
        · rcases ih2 with h | ⟨hx1, hx2, hx3⟩
          · exact Or.inl h
          · exact Or.inr ⟨by omega, hx2, hx3⟩
        · intro j hj hpj
          rcases Nat.lt_succ_iff_lt_or_eq.mp hj with hj' | hj'
          · exact ih3 j hj' hpj
          · subst hj'
            exact le_of_not_lt hlt
    · rw [if_neg hp]
      refine ⟨ih1, ?_, ?_⟩
      · rcases ih2 with h | ⟨hx1, hx2, hx3⟩
        · exact Or.inl h
        · exact Or.inr ⟨by omega, hx2, hx3⟩
      · intro j hj hpj
        rcases Nat.lt_succ_iff_lt_or_eq.mp hj with hj' | hj'
        · exact ih3 j hj' hpj
        · subst hj'
          exact absurd hpj hp

/-- Claim C9 (amended).  `GetFurthestDistance` succeeds exactly when some
vertex passing the mask has squared **model-local** distance to the query
point strictly above `FLT_MIN` (a passing vertex essentially coincident with
the query point does not count — the `FLT_MIN` seed also serves as the found
flag); on success the returned index maximizes the model-local (not
world-space) distance among passing vertices, and the returned scalar is that
vertex's world-space distance. -/
theorem C9_furthest_amended (model : MeshData) (pos : Vec3) (mask : Bool)
    (len3 : Vec3 → ℚ) :
    (∀ vi d, GetFurthestDistance model pos mask len3 = some (vi, d) →
      vi < model.num_vertices ∧
      (!mask || decide (0 < model.selection.getD vi 0)) = true ∧
      fltMin < distSq (model.vertices.getD vi Vec3.zero)
        ((Mat4.invert model.transform).mulP pos) ∧
      (∀ j, j < model.num_vertices →
        (!mask || decide (0 < model.selection.getD j 0)) = true →
        distSq (model.vertices.getD j Vec3.zero) ((Mat4.invert model.transform).mulP pos)
          ≤ distSq (model.vertices.getD vi Vec3.zero)
            ((Mat4.invert model.transform).mulP pos)) ∧
      d = len3 ((model.transform.mulP (model.vertices.getD vi Vec3.zero)).sub pos)) ∧
    ((∃ j, j < model.num_vertices ∧
        (!mask || decide (0 < model.selection.getD j 0)) = true ∧
        fltMin < distSq (model.vertices.getD j Vec3.zero)
          ((Mat4.invert model.transform).mulP pos)) →
      (GetFurthestDistance model pos mask len3).isSome = true) := by
  obtain ⟨h1, h2, h3⟩ := furthestFold_inv
    (fun vi => !mask || decide (0 < model.selection.getD vi 0))
    (fun vi => distSq (model.vertices.getD vi Vec3.zero)
      ((Mat4.invert model.transform).mulP pos))
    model.num_vertices
  constructor
  · intro vi d hsome
    simp only [GetFurthestDistance] at hsome
    by_cases hlt : fltMin < ((List.range model.num_vertices).foldl
        (furthestStep (fun vi => !mask || decide (0 < model.selection.getD vi 0))
          (fun vi => distSq (model.vertices.getD vi Vec3.zero)
            ((Mat4.invert model.transform).mulP pos))) (fltMin, 0)).1
    · rw [if_pos hlt] at hsome
      have hpair := Option.some.inj hsome
      have hvi : ((List.range model.num_vertices).foldl
          (furthestStep (fun vi => !mask || decide (0 < model.selection.getD vi 0))
            (fun vi => distSq (model.vertices.getD vi Vec3.zero)
              ((Mat4.invert model.transform).mulP pos))) (fltMin, 0)).2 = vi :=
        congrArg Prod.fst hpair
      have hd := congrArg Prod.snd hpair
      rcases h2 with hfl | ⟨hlt2, hpass, heq⟩
      · rw [hfl] at hlt
        exact absurd hlt (lt_irrefl _)
      · subst hvi
        refine ⟨hlt2, hpass, ?_, ?_, hd.symm⟩
        · rw [← heq]
          exact hlt
        · intro j hj hpj
          rw [← heq]
          exact h3 j hj hpj
    · rw [if_neg hlt] at hsome
      exact absurd hsome (by simp)
  · intro hex
    obtain ⟨j, hj, hpj, hdj⟩ := hex
    simp only [GetFurthestDistance]
    have hlt : fltMin < ((List.range model.num_vertices).foldl
        (furthestStep (fun vi => !mask || decide (0 < model.selection.getD vi 0))
          (fun vi => distSq (model.vertices.getD vi Vec3.zero)
            ((Mat4.invert model.transform).mulP pos))) (fltMin, 0)).1 :=
      lt_of_lt_of_le hdj (h3 j hj hpj)
    rw [if_pos hlt]
    rfl

/-- Claim C9 is false as stated on two counts (the length oracle
`fun v => |v.x| + |v.y| + |v.z|` equals the Euclidean length on the
axis-aligned vectors this input produces).  First, a mesh whose only vertex
coincides with the query point passes the disabled mask yet the call fails:
the `FLT_MIN` seed of the running maximum doubles as the found flag, and a
zero squared distance never exceeds it.  Second, under the non-uniform
transform `scale(3,1,1)` the scan maximizes **model-local** distance: it
returns vertex 1 with world distance 2 although vertex 0's world distance is
3, so the returned vertex does not maximize world-space distance. -/
theorem C9_counterexample :
    GetFurthestDistance ⟨[], [⟨0, 0, 0⟩], [], [], [], [], 1, 0, Mat4.id⟩ ⟨0, 0, 0⟩
      false (fun v => |v.x| + |v.y| + |v.z|) = none ∧
    GetFurthestDistance
      ⟨[], [⟨1, 0, 0⟩, ⟨0, 2, 0⟩], [], [], [], [], 2, 0,
        ⟨3, 0, 0, 0, 0, 1, 0, 0, 0, 0, 1, 0, 0, 0, 0, 1⟩⟩
      ⟨0, 0, 0⟩ false (fun v => |v.x| + |v.y| + |v.z|) = some (1, 2) ∧
    ((fun v : Vec3 => |v.x| + |v.y| + |v.z|)
      (((⟨3, 0, 0, 0, 0, 1, 0, 0, 0, 0, 1, 0, 0, 0, 0, 1⟩ : Mat4).mulP
        (⟨1, 0, 0⟩ : Vec3)).sub ⟨0, 0, 0⟩)) = 3 := by
  have hinv : Mat4.invert ⟨3, 0, 0, 0, 0, 1, 0, 0, 0, 0, 1, 0, 0, 0, 0, 1⟩ =
      ⟨1 / 3, 0, 0, 0, 0, 1, 0, 0, 0, 0, 1, 0, 0, 0, 0, 1⟩ := by
    unfold Mat4.invert
    norm_num [Mat4.det, Mat4.det3]
  refine ⟨?_, ?_, ?_⟩
  · norm_num [GetFurthestDistance, furthestStep, Mat4_invert_id, Mat4_mulP_id,
      distSq, Vec3.sub, Vec3.lengthSq, fltMin, List.range_succ, List.getD, Vec3.zero]
  · norm_num [GetFurthestDistance, furthestStep, hinv, Mat4.mulP,
      distSq, Vec3.sub, Vec3.lengthSq, fltMin, List.range_succ, List.getD, Vec3.zero]
  · norm_num [Mat4.mulP, Vec3.sub]

/-- Witness for C9's amended theorem: a vertex at distance 1 makes the query
succeed. -/
theorem C9_furthest_witness :
    (GetFurthestDistance ⟨[], [⟨1, 0, 0⟩], [], [], [], [], 1, 0, Mat4.id⟩ ⟨0, 0, 0⟩
      false (fun v => |v.x| + |v.y| + |v.z|)).isSome = true :=
  (C9_furthest_amended _ _ _ _).2 ⟨0, by decide, rfl, by
    norm_num [distSq, Vec3.sub, Vec3.lengthSq, Mat4_invert_id, Mat4_mulP_id,
      fltMin, List.getD, Vec3.zero]⟩

/-! ### Claim C5 -/

theorem foldl_break_eq_find (p : ℕ → Bool) (l : List ℕ) :
    l.foldl (fun acc i =>
      match acc with
      | some j => some j
      | none => if p i then some i else none) none = l.find? p := by
  have hsome : ∀ (t : List ℕ) (j : ℕ), t.foldl (fun acc i =>
      match acc with
      | some j' => some j'
      | none => if p i then some i else none) (some j) = some j := by
    intro t j
    induction t with
    | nil => rfl
    | cons a t ih => simpa using ih
  induction l with
  | nil => rfl
  | cons a t ih =>
    by_cases hpa : p a = true
    · rw [List.find?_cons_of_pos _ hpa]
      simpa [hpa] using hsome t a
    · rw [List.find?_cons_of_neg _ (by simpa using hpa)]
      simpa [hpa] using ih

/-- Claim C5 (amended).  A vertex with **nonnegative** signed distance within
the numeric tolerance of zero is tagged plane-resident (`-2`); a vertex with
strictly negative signed distance — even one within the tolerance — is never
tagged `-2`: it stores the first vertex satisfying the partner test (positive
distance, mirrored position within epsilon, mirrored normal dot ≥ 0.99), or
`-1` when no vertex satisfies it; a vertex with nonnegative distance outside
the tolerance gets `-1`. -/
theorem C5_mirror_relation_amended (model : MeshData) (mirror_plane : Vec3)
    (epsilon tol : ℚ) (vi : ℕ) (hvi : vi < model.num_vertices) :
    (planeDistance (model.vertices.getD vi Vec3.zero) mirror_plane < 0 →
      (npBuildMirroringRelation model mirror_plane epsilon tol).getD vi 0 =
        (match (List.range model.num_vertices).find?
            (mirrorMatch model mirror_plane epsilon
              ((List.range model.num_vertices).map fun k =>
                planeDistance (model.vertices.getD k Vec3.zero) mirror_plane) vi) with
         | some i => (i : ℤ)
         | none => -1)) ∧
    (0 ≤ planeDistance (model.vertices.getD vi Vec3.zero) mirror_plane →
      |planeDistance (model.vertices.getD vi Vec3.zero) mirror_plane| < tol →
      (npBuildMirroringRelation model mirror_plane epsilon tol).getD vi 0 = -2) ∧
    (0 ≤ planeDistance (model.vertices.getD vi Vec3.zero) mirror_plane →
      ¬ |planeDistance (model.vertices.getD vi Vec3.zero) mirror_plane| < tol →
      (npBuildMirroringRelation model mirror_plane epsilon tol).getD vi 0 = -1) := by
  have hbody : (npBuildMirroringRelation model mirror_plane epsilon tol).getD vi 0 =
      (let d1 := planeDistance (model.vertices.getD vi Vec3.zero) mirror_plane
       if d1 < 0 then
        match (List.range model.num_vertices).find?
            (mirrorMatch model mirror_plane epsilon
              ((List.range model.num_vertices).map fun k =>
                planeDistance (model.vertices.getD k Vec3.zero) mirror_plane) vi) with
        | some i => (i : ℤ)
        | none => -1
       else if nearEqual d1 0 tol then -2
       else -1) := by
    unfold npBuildMirroringRelation
    rw [getD_map_range _ _ hvi]
    rw [getD_map_range _ _ hvi]
    rw [foldl_break_eq_find]
  rw [hbody]
  refine ⟨fun hneg => ?_, fun hge htol => ?_, fun hge htol => ?_⟩
  · simp only [if_pos hneg]
  · rw [if_neg (by exact not_lt.mpr hge)]
    rw [if_pos (by simp [nearEqual]; simpa using htol)]
  · rw [if_neg (by exact not_lt.mpr hge)]
    rw [if_neg (by simp [nearEqual]; simpa using htol)]

/-- Claim C5 is false as stated: a single vertex at x = -1/100000 with mirror
plane normal (1,0,0) has signed distance -1/100000, within the numeric
tolerance 1/10000 of zero, yet `npBuildMirroringRelation` does not tag it
plane-resident (-2): the `d1 < 0` branch runs the partner search, which fails,
leaving -1. -/
theorem C5_counterexample :
    |planeDistance ((⟨-(1 : ℚ) / 100000, 0, 0⟩ : Vec3)) ⟨1, 0, 0⟩ - 0| < 1 / 10000 ∧
    npBuildMirroringRelation
      ⟨[], [⟨-(1 : ℚ) / 100000, 0, 0⟩], [⟨0, 0, 1⟩], [], [], [], 1, 0, Mat4.id⟩
      ⟨1, 0, 0⟩ (1 / 100) (1 / 10000) = [-1] := by
  constructor
  · rw [abs_lt]
    constructor <;> norm_num [planeDistance, Vec3.dot]
  · norm_num [npBuildMirroringRelation, mirrorMatch, planeDistance, Vec3.dot,
      List.range_succ, List.getD, nearEqual]

/-- Witness for C5's amended theorem: a lone negative-side vertex (distance -1)
searches for a partner and stores -1. -/
theorem C5_mirror_witness :
    planeDistance (((⟨[], [⟨-(1 : ℚ), 0, 0⟩], [⟨0, 0, 1⟩], [], [], [], 1, 0, Mat4.id⟩ :
        MeshData).vertices.getD 0 Vec3.zero)) ⟨1, 0, 0⟩ < 0 ∧
    (npBuildMirroringRelation
        ⟨[], [⟨-(1 : ℚ), 0, 0⟩], [⟨0, 0, 1⟩], [], [], [], 1, 0, Mat4.id⟩
        ⟨1, 0, 0⟩ (1 / 100) (1 / 10000)).getD 0 0 = -1 := by
  have hneg : planeDistance (((⟨[], [⟨-(1 : ℚ), 0, 0⟩], [⟨0, 0, 1⟩], [], [], [], 1, 0,
      Mat4.id⟩ : MeshData).vertices.getD 0 Vec3.zero)) ⟨1, 0, 0⟩ < 0 := by
    norm_num [planeDistance, Vec3.dot, List.getD]
  refine ⟨hneg, ?_⟩
  have h := (C5_mirror_relation_amended
    ⟨[], [⟨-(1 : ℚ), 0, 0⟩], [⟨0, 0, 1⟩], [], [], [], 1, 0, Mat4.id⟩
    ⟨1, 0, 0⟩ (1 / 100) (1 / 10000) 0 (by norm_num)).1 hneg
  rw [h]
  norm_num [List.range_succ, List.find?, mirrorMatch, planeDistance, Vec3.dot,
    List.getD]

/-! ### Claim C10 -/

/-- Claim C10: `npSelectLasso` called with fewer than 3 lasso points returns 0
and leaves every vertex's selection weight unchanged. -/
theorem C10_lasso_needs_three_points (model : MeshData) (mvp : Mat4)
    (lasso : List Vec2) (strength : ℚ) (frontface_only : Bool) (ffHit : ℕ → Bool)
    (polyInside : Vec2 → Bool) (h : lasso.length < 3) :
    npSelectLasso model mvp lasso strength frontface_only ffHit polyInside
      = (0, model.selection) := by
  unfold npSelectLasso
  simp [h]

/-- Witness for C10 at a concrete 2-point lasso. -/
theorem C10_lasso_witness :
    ([(⟨0, 0⟩ : Vec2), ⟨1, 1⟩].length < 3) ∧
    npSelectLasso ⟨[], [⟨0, 0, 0⟩], [], [], [], [1 / 2], 1, 0, Mat4.id⟩ Mat4.id
      [⟨0, 0⟩, ⟨1, 1⟩] 1 false (fun _ => true) (fun _ => true) = (0, [1 / 2]) :=
  ⟨by norm_num, C10_lasso_needs_three_points _ _ _ _ _ _ _ (by norm_num)⟩

/-! ### Claim C8 -/

/-- Claim C8: when the axis-angle decomposition of the rotation quaternion
yields a near-zero angle (`near_equal(angle, 0)`) or a NaN angle,
`npRotatePivotVertices` returns immediately and every vertex position is left
unchanged, so nothing (in particular no NaN) is written to the vertex buffer. -/
theorem C8_rotate_degenerate_angle_noop (model : MeshData) (value : Quat)
    (pivot_pos : Vec3) (pivot_rot : Quat) (mask : Bool) (angleOf : Quat → ℚ)
    (angleNaN : Quat → Bool) (tol : ℚ)
    (h : nearEqual (angleOf value) 0 tol = true ∨ angleNaN value = true) :
    npRotatePivotVertices model value pivot_pos pivot_rot mask angleOf angleNaN tol
      = model.vertices := by
  unfold npRotatePivotVertices
  rcases h with h | h <;> simp [h]

/-- Witness for C8: the identity quaternion (true angle 0) at its exact angle
oracle leaves a concrete one-vertex buffer unchanged. -/
theorem C8_rotate_witness :
    (nearEqual ((fun _ : Quat => (0 : ℚ)) Quat.id) 0 npEpsilon = true ∨
      (fun _ : Quat => false) Quat.id = true) ∧
    npRotatePivotVertices ⟨[], [⟨1, 2, 3⟩], [], [], [], [], 1, 0, Mat4.id⟩ Quat.id
      ⟨0, 0, 0⟩ Quat.id false (fun _ => 0) (fun _ => false) npEpsilon = [⟨1, 2, 3⟩] :=
  ⟨Or.inl (by norm_num [nearEqual, npEpsilon]),
   C8_rotate_degenerate_angle_noop _ _ _ _ _ _ _ _
     (Or.inl (by norm_num [nearEqual, npEpsilon]))⟩

end VT
